import Mathlib

/-!
Verification development for the ZIP archive directory reader
(`ZipDirCacheFactory.cpp`, `AZ::IO::ZipDir::CacheFactory`).

The file embeds the factory's open path as pure functions over a byte file
modelled as `List Nat` (each byte taken mod 256 on access).  Machine
integers are modelled as `Nat` with explicit `% 2 ^ w` where C++ overflow
could matter.  The `THROW_ZIPDIR_ERROR` macro of the source is a logging
side effect followed by an explicit `return`; accordingly, functions whose
C++ counterpart returns `bool`/a value propagate errors in `Except` or in
an explicit error list (the log), and `void` functions that merely log are
modelled as returning their log.
-/

namespace ZipDir

/-- Error tags of the ZipDir component (`ZD_ERROR_*`).  `tooSmall` stands for
the warning-and-return-false path of `FindCDREnd` when the file is smaller
than a `CDREnd` record, and `tooLargeFatal` for the `AZ_Fatal` abort on
files larger than 2 GiB; neither has a `ZD_ERROR_*` code of its own. -/
inductive ZipDirError where
  | ioFailed
  | noCdr
  | dataCorrupt
  | unsupported
  | cdrCorrupt
  | noMemory
  | corruptedData
  | validationFailed
  | zlibNoMemory
  | zlibCorrupted
  | zlibFailed
  | crc32Check
  | unexpected
  | tooSmall
  | tooLargeFatal
deriving Repr, DecidableEq

/-- Result of the external `ZipRawUncompress` call (zlib), abstracted:
`ok out` is `Z_OK` with `out` the produced bytes, the others are
`Z_MEM_ERROR`, `Z_BUF_ERROR`, `Z_DATA_ERROR` and any other zlib code. -/
inductive ZlibResult where
  | ok (out : List Nat)
  | memError
  | bufError
  | dataError
  | otherError
deriving Repr, DecidableEq

/-- Init method of the factory (`InitMethodEnum`): `default` validates via
the local file header only, `full` forces data-offset resolution at open,
`validate` additionally decompresses and CRC-checks every entry.  The
source compares the enum with `>=`, so the numeric order matters. -/
inductive InitMethod where
  | default
  | full
  | validate
deriving Repr, DecidableEq

/-- Numeric value of the init method, for the `>= ZD_INIT_FULL` and
`>= ZD_INIT_VALIDATE` comparisons of the source. -/
def InitMethod.toNat : InitMethod → Nat
  | .default => 0
  | .full => 1
  | .validate => 2

/-- Byte read with default 0; every access truncates to a byte.  The scan
of `FindCDREnd` only reads inside the file, and the CDR walk reads inside
the CDR buffer (whose 16 trailing slack bytes are value-initialised to 0
by `AZStd::vector::resize`), so a defaulting read is faithful there. -/
def byteD (f : List Nat) (i : Nat) : Nat := f.getD i 0 % 256

/-- Little-endian 16-bit read. -/
def u16At (f : List Nat) (i : Nat) : Nat := byteD f i + 256 * byteD f (i + 1)

/-- Little-endian 32-bit read. -/
def u32At (f : List Nat) (i : Nat) : Nat :=
  byteD f i + 256 * byteD f (i + 1) + 65536 * byteD f (i + 2) + 16777216 * byteD f (i + 3)

/-- Little-endian 64-bit read (NTFS timestamp in the extra field). -/
def u64At (f : List Nat) (i : Nat) : Nat := u32At f i + 4294967296 * u32At f (i + 4)

/-- ZIP end-of-central-directory signature `0x06054b50`. -/
def CDREndSignature : Nat := 0x06054b50

/-- Byte size of the packed `ZipFile::CDREnd` structure. -/
def sizeofCDREnd : Nat := 22

/-- Byte size of the packed `ZipFile::CDRFileHeader` structure. -/
def sizeofCDRFileHeader : Nat := 46

/-- Byte size of the packed `ZipFile::LocalFileHeader` structure. -/
def sizeofLocalFileHeader : Nat := 30

/-- Modelled from the spec: the vendor `ExtendedTrailer` is
`{ u16 header_size; u16 encryption_kind; u16 signing_kind; }` (the
`ZipFileFormat.h` declaring `CryCustomExtendedHeader` is not part of this
repository snapshot), hence 6 bytes. -/
def sizeofExtendedTrailer : Nat := 6

/-- Modelled from the spec: the `EncryptionTrailer`
(`CryCustomEncryptionHeader`) is present iff the encryption kind is
streamcipher-keytable; the spec fixes no byte size, and no claim depends
on the value, so a fixed representative constant is used. -/
def sizeofEncryptionTrailer : Nat := 16

/-- Modelled from the spec: the `SignatureTrailer` (`CrySignedCDRHeader`)
is `{ u16 header_size; ... }`; the spec fixes no total size, and no claim
depends on the value, so a fixed representative constant is used. -/
def sizeofSignatureTrailer : Nat := 8

/-- Modelled from the spec: `EHeaderEncryptionType` values.  Only their
partition matters for the source logic: 0 is not-encrypted, 1 and 2 are
the two legacy kinds (streamcipher and TEA) carried in bits 14-15 of the
EOCD disk field, 3 is the streamcipher-keytable kind of the extended
trailer. -/
def HEADERS_NOT_ENCRYPTED : Nat := 0

/-- Legacy streamcipher encryption kind (see `HEADERS_NOT_ENCRYPTED`). -/
def HEADERS_ENCRYPTED_STREAMCIPHER : Nat := 1

/-- Legacy TEA encryption kind (see `HEADERS_NOT_ENCRYPTED`). -/
def HEADERS_ENCRYPTED_TEA : Nat := 2

/-- Streamcipher-keytable encryption kind declared by the extended
trailer (see `HEADERS_NOT_ENCRYPTED`). -/
def HEADERS_ENCRYPTED_STREAMCIPHER_KEYTABLE : Nat := 3

/-- Modelled from the spec: `EHeaderSignatureType` values; 0 is
not-signed, 1 is CDR-signed. -/
def HEADERS_NOT_SIGNED : Nat := 0

/-- CDR-signed signing kind (see `HEADERS_NOT_SIGNED`). -/
def HEADERS_CDR_SIGNED : Nat := 1

/-- ZIP `STORE` compression method. -/
def METHOD_STORE : Nat := 0

/-- ZIP `DEFLATE` compression method. -/
def METHOD_DEFLATE : Nat := 8

/-- Modelled from the spec: the vendor `STORE_AND_STREAMCIPHER_KEYTABLE`
method; the exact numeric value is not in this snapshot and no claim
depends on it, a representative distinct value is used. -/
def METHOD_STORE_AND_STREAMCIPHER_KEYTABLE : Nat := 13

/-- The packed `ZipFile::CDREnd` record. -/
structure CDREnd where
  lSignature : Nat
  nDisk : Nat
  nCDRStartDisk : Nat
  numEntriesOnDisk : Nat
  numEntriesTotal : Nat
  lCDRSize : Nat
  lCDROffset : Nat
  nCommentLength : Nat
deriving Repr, DecidableEq

/-- Decode a `CDREnd` record at byte offset `p` (standard ZIP layout). -/
def readCDREndAt (f : List Nat) (p : Nat) : CDREnd where
  lSignature := u32At f p
  nDisk := u16At f (p + 4)
  nCDRStartDisk := u16At f (p + 6)
  numEntriesOnDisk := u16At f (p + 8)
  numEntriesTotal := u16At f (p + 10)
  lCDRSize := u32At f (p + 12)
  lCDROffset := u32At f (p + 16)
  nCommentLength := u16At f (p + 20)

/-- The size/CRC descriptor shared by CDR and local file headers
(`ZipFile::DataDescriptor`). -/
structure DataDescriptor where
  lCRC32 : Nat
  lSizeCompressed : Nat
  lSizeUncompressed : Nat
deriving Repr, DecidableEq

/-- The packed `ZipFile::CDRFileHeader` record (central directory entry). -/
structure CDRFileHeader where
  lSignature : Nat
  nVersionMadeBy : Nat
  nVersionNeeded : Nat
  nFlags : Nat
  nMethod : Nat
  nLastModTime : Nat
  nLastModDate : Nat
  desc : DataDescriptor
  nFileNameLength : Nat
  nExtraFieldLength : Nat
  nFileCommentLength : Nat
  nDiskNumberStart : Nat
  nAttributes : Nat
  lAttributes : Nat
  lLocalHeaderOffset : Nat
deriving Repr, DecidableEq

/-- Decode a `CDRFileHeader` at offset `p` of the CDR buffer. -/
def readCDRFileHeaderAt (b : List Nat) (p : Nat) : CDRFileHeader where
  lSignature := u32At b p
  nVersionMadeBy := u16At b (p + 4)
  nVersionNeeded := u16At b (p + 6)
  nFlags := u16At b (p + 8)
  nMethod := u16At b (p + 10)
  nLastModTime := u16At b (p + 12)
  nLastModDate := u16At b (p + 14)
  desc := ⟨u32At b (p + 16), u32At b (p + 20), u32At b (p + 24)⟩
  nFileNameLength := u16At b (p + 28)
  nExtraFieldLength := u16At b (p + 30)
  nFileCommentLength := u16At b (p + 32)
  nDiskNumberStart := u16At b (p + 34)
  nAttributes := u16At b (p + 36)
  lAttributes := u32At b (p + 38)
  lLocalHeaderOffset := u32At b (p + 42)

/-- The packed `ZipFile::LocalFileHeader` record. -/
structure LocalFileHeader where
  lSignature : Nat
  nVersionNeeded : Nat
  nFlags : Nat
  nMethod : Nat
  nLastModTime : Nat
  nLastModDate : Nat
  desc : DataDescriptor
  nFileNameLength : Nat
  nExtraFieldLength : Nat
deriving Repr, DecidableEq

/-- Decode a `LocalFileHeader` from the start of a read buffer. -/
def readLocalFileHeader (b : List Nat) : LocalFileHeader where
  lSignature := u32At b 0
  nVersionNeeded := u16At b 4
  nFlags := u16At b 6
  nMethod := u16At b 8
  nLastModTime := u16At b 10
  nLastModDate := u16At b 12
  desc := ⟨u32At b 14, u32At b 18, u32At b 22⟩
  nFileNameLength := u16At b 26
  nExtraFieldLength := u16At b 28

/-- Modelled from the spec: the vendor extended trailer
(`CryCustomExtendedHeader`), three u16 fields. -/
structure ExtendedTrailer where
  nHeaderSize : Nat
  nEncryption : Nat
  nSigning : Nat
deriving Repr, DecidableEq

/-- Read the extended trailer at offset `off`.  The source issues an
unchecked `Read`; on a failed read (past end of file) the member it reads
into keeps its prior contents, modelled as all zeroes, which the following
`nHeaderSize` validation then rejects. -/
def readExtendedTrailerAt (f : List Nat) (off : Nat) : ExtendedTrailer :=
  if off + sizeofExtendedTrailer ≤ f.length then
    ⟨u16At f off, u16At f (off + 2), u16At f (off + 4)⟩
  else ⟨0, 0, 0⟩

/-- Read the signature trailer's self-size field at offset `off` (the rest
of the trailer is opaque to the factory); failed reads as zeroes, as in
`readExtendedTrailerAt`. -/
def readSignatureHeaderSizeAt (f : List Nat) (off : Nat) : Nat :=
  if off + sizeofSignatureTrailer ≤ f.length then u16At f off else 0

/-- Backwards scan of `FindCDREnd`, collapsed to its per-position
semantics: the windowed buffer of the source (256-byte windows plus a
21-byte overlap carried by `memmove`) exactly enumerates the candidate
positions from `fileSize - 22` down to the clamp `low`, checking the
4-byte signature at each position from high to low; a signature hit with
consistent comment length is accepted, a hit with inconsistent comment
length raises `DataCorrupt` at once, and reaching the clamp without a hit
raises `NoCdr`. -/
def scanFrom (f : List Nat) (low : Nat) : Nat → Except ZipDirError (CDREnd × Nat)
  | 0 =>
    let r := readCDREndAt f 0
    if r.lSignature = CDREndSignature then
      if r.nCommentLength = f.length - sizeofCDREnd then .ok (r, 0)
      else .error .dataCorrupt
    else .error .noCdr
  | p + 1 =>
    let r := readCDREndAt f (p + 1)
    if r.lSignature = CDREndSignature then
      if r.nCommentLength = f.length - (p + 1) - sizeofCDREnd then .ok (r, p + 1)
      else .error .dataCorrupt
    else if p + 1 ≤ low then .error .noCdr
    else scanFrom f low p

/-- Lowest scan position of `FindCDREnd`: positions before
`fileSize - sizeofCDREnd - 0xFFFF` cannot start a valid EOCD because the
comment length field is 16 bits. -/
def scanLow (fileSize : Nat) : Nat :=
  if fileSize > sizeofCDREnd + 0xFFFF then fileSize - sizeofCDREnd - 0xFFFF else 0

/-- `CacheFactory::FindCDREnd`: size gates (fatal on > 2 GiB, failure on
files smaller than a `CDREnd`), then the backwards scan.  On success
returns the record and its file offset (`m_nCDREndPos`). -/
def findCDREnd (f : List Nat) : Except ZipDirError (CDREnd × Nat) :=
  if f.length > 2 ^ 31 then .error .tooLargeFatal
  else if f.length < sizeofCDREnd then .error .tooSmall
  else scanFrom f (scanLow f.length) (f.length - sizeofCDREnd)

/-- Legacy encryption hint: bits 14-15 of the EOCD disk field, kept only
when they denote one of the two legacy kinds. -/
def legacyEncryption (nDisk : Nat) : Nat :=
  let headerEnc := nDisk / 16384
  if headerEnc = HEADERS_ENCRYPTED_TEA ∨ headerEnc = HEADERS_ENCRYPTED_STREAMCIPHER then headerEnc
  else HEADERS_NOT_ENCRYPTED

/-- EOCD record with the two legacy encryption bits masked off the disk
field (`m_CDREnd.nDisk &= 0x3fff`). -/
def maskDisk (c : CDREnd) : CDREnd := { c with nDisk := c.nDisk % 16384 }

/-- Trailer decoding block of `CacheFactory::Prepare`, entered when the
comment holds at least an extended trailer.  `enc0` is the legacy hint
already extracted from the disk field.  Returns the resulting
encryption and signing kinds (`m_encryptedHeaders`, `m_signedHeaders`). -/
def decodeTrailers (f : List Nat) (c : CDREnd) (enc0 : Nat) : Except ZipDirError (Nat × Nat) :=
  let off := (c.lCDROffset + c.lCDRSize + sizeofCDREnd) % 2 ^ 32
  let ext := readExtendedTrailerAt f off
  if ext.nHeaderSize ≠ sizeofExtendedTrailer then .error .dataCorrupt
  else
    let signedH := ext.nSigning
    if ext.nEncryption ≠ HEADERS_NOT_ENCRYPTED ∧ enc0 ≠ HEADERS_NOT_ENCRYPTED then
      .error .dataCorrupt
    else
      let encH := ext.nEncryption
      let encLen? : Option Nat :=
        if encH = HEADERS_NOT_ENCRYPTED then some 0
        else if encH = HEADERS_ENCRYPTED_STREAMCIPHER_KEYTABLE then some sizeofEncryptionTrailer
        else none
      match encLen? with
      | none => .error .dataCorrupt
      | some encLen =>
        let sigLen? : Option Nat :=
          if signedH = HEADERS_NOT_SIGNED then some 0
          else if signedH = HEADERS_CDR_SIGNED then some sizeofSignatureTrailer
          else none
        match sigLen? with
        | none => .error .dataCorrupt
        | some sigLen =>
          if c.nCommentLength = sizeofExtendedTrailer + encLen + sigLen then
            if signedH = HEADERS_CDR_SIGNED then
              if readSignatureHeaderSizeAt f (off + sizeofExtendedTrailer) ≠ sizeofSignatureTrailer
              then .error .dataCorrupt
              else .ok (encH, signedH)
            else .ok (encH, signedH)
          else .error .dataCorrupt

/-- State produced by a successful `CacheFactory::Prepare` before the CDR
walk: the masked EOCD record, its position, and the decoded header
encryption and signing kinds. -/
structure PrepState where
  cdrEnd : CDREnd
  cdrEndPos : Nat
  encryptedHeaders : Nat
  signedHeaders : Nat
deriving Repr, DecidableEq

/-- `CacheFactory::Prepare` up to (and including) the structural checks
that precede `BuildFileEntryMap`: locate the EOCD, extract the legacy
encryption hint and mask the disk field, decode the vendor trailers when
the comment is large enough, reject multi-volume archives, and validate
the CDR range against the EOCD position. -/
def prepare (f : List Nat) : Except ZipDirError PrepState :=
  match findCDREnd f with
  | .error e => .error e
  | .ok (c0, pos) =>
    let enc0 := legacyEncryption c0.nDisk
    let c := maskDisk c0
    match (if c.nCommentLength ≥ sizeofExtendedTrailer then decodeTrailers f c enc0
           else .ok (enc0, HEADERS_NOT_SIGNED)) with
    | .error e => .error e
    | .ok (encH, signedH) =>
      if c.nDisk ≠ 0 ∨ c.nCDRStartDisk ≠ 0 ∨ c.numEntriesOnDisk ≠ c.numEntriesTotal then
        .error .unsupported
      else if c.lCDROffset > pos ∨ c.lCDRSize > pos ∨ (c.lCDROffset + c.lCDRSize) % 2 ^ 32 > pos then
        .error .dataCorrupt
      else .ok ⟨c, pos, encH, signedH⟩

/-- File entry stored at tree leaves (`ZipDir::FileEntryBase`, fields as
described by the spec's FileEntry).  `nFileDataOffset`/`nEOFOffset` are
`Option Nat` with `none` standing for the uninitialised
`INVALID_DATA_OFFSET` state before `InitDataOffset` runs. -/
structure FileEntryBase where
  desc : DataDescriptor
  nFileHeaderOffset : Nat
  nFileDataOffset : Option Nat
  nEOFOffset : Option Nat
  nMethod : Nat
  nNameOffset : Nat
  nLastModTime : Nat
  nLastModDate : Nat
  nNTFSModTime : Nat
deriving Repr, DecidableEq

/-- Modelled from the spec: the `FileEntryBase` constructor from a CDR
header and the extracted extra data (its body lives in
`ZipDirStructures.h`, outside this snapshot): it copies the descriptor,
method, local-header offset and timestamps and leaves the data and EOF
offsets uninitialised.  `nNameOffset` records the entry name's offset
inside the CDR buffer, the sort key of the EOF-offset sweep (spec section
5). -/
def FileEntryBase.ofHeader (h : CDRFileHeader) (ntfsTime : Nat) (nameOffset : Nat) :
    FileEntryBase where
  desc := h.desc
  nFileHeaderOffset := h.lLocalHeaderOffset
  nFileDataOffset := none
  nEOFOffset := none
  nMethod := h.nMethod
  nNameOffset := nameOffset
  nLastModTime := h.nLastModTime
  nLastModDate := h.nLastModDate
  nNTFSModTime := ntfsTime

/-- ASCII `std::tolower` with the default locale, as applied to filename
bytes. -/
def toLowerByte (b : Nat) : Nat := if 65 ≤ b ∧ b ≤ 90 then b + 32 else b

/-- `AZ_CORRECT_FILESYSTEM_SEPARATOR` is `/` and the wrong separator is a
backslash. -/
def correctSeparator : Nat := 47

/-- Backslash, the wrong filesystem separator replaced by normalisation. -/
def wrongSeparator : Nat := 92

/-- Per-byte filename normalisation of `BuildFileEntryMap`: lowercase,
then replace the wrong separator by the canonical one. -/
def normalizeName (name : List Nat) : List Nat :=
  name.map fun b =>
    let c := toLowerByte b
    if c = wrongSeparator then correctSeparator else c

/-- Read `n` bytes at `pos`.  The boolean is the `FRead` success flag; the
source does not check it in `InitDataOffset`/`Validate` and continues with
the value-initialised (all zero) buffer, which the model mirrors. -/
def readOrZeros (f : List Nat) (pos n : Nat) : List Nat × Bool :=
  if pos + n ≤ f.length then ((f.drop pos).take n, true) else (List.replicate n 0, false)

/-- Case-insensitive filename comparison of `InitDataOffset`
(`AZStd::equal` over the local-header name against the CDR name, with a
`tolower` predicate; the second range's length is not checked by
`AZStd::equal`, hence the `zip`). -/
def namesMatchNoCase (a b : List Nat) : Bool :=
  (a.zip b).all fun p => toLowerByte p.1 = toLowerByte p.2

/-- `CacheFactory::Validate`: read the compressed bytes, decompress (raw
memcpy for method 0), compare the produced length and the CRC32.  The
zlib call and the CRC32 computation are external code, abstracted as the
`uncompress` and `crc32fn` parameters.  The function only logs; it never
aborts the walk. -/
def validateEntry (uncompress : List Nat → Nat → ZlibResult) (crc32fn : List Nat → Nat)
    (f : List Nat) (desc : DataDescriptor) (method : Nat) (dataOffset : Nat) :
    List ZipDirError :=
  let rd := readOrZeros f dataOffset desc.lSizeCompressed
  let rdLog : List ZipDirError := if rd.2 then [] else [.ioFailed]
  match (if method ≠ 0 then uncompress rd.1 desc.lSizeUncompressed
         else .ok (rd.1.take desc.lSizeUncompressed)) with
  | .ok out =>
    if out.length ≠ desc.lSizeUncompressed then rdLog ++ [.corruptedData]
    else if crc32fn out ≠ desc.lCRC32 then rdLog ++ [.crc32Check]
    else rdLog
  | .memError => rdLog ++ [.zlibNoMemory]
  | .bufError => rdLog ++ [.zlibCorrupted]
  | .dataError => rdLog ++ [.zlibCorrupted]
  | .otherError => rdLog ++ [.zlibFailed]

/-- Common tail of `InitDataOffset` once the data offset is determined:
set the data and EOF offsets, reject entries crossing the EOCD position,
then optionally run `Validate`.  The offsets remain set on the entry even
when the bounds check or the validation logs an error, because the source
only logs and returns. -/
def initDataOffsetFinish (uncompress : List Nat → Nat → ZlibResult)
    (crc32fn : List Nat → Nat) (im : InitMethod) (f : List Nat) (cdrEndPos : Nat)
    (log : List ZipDirError) (fe : FileEntryBase) (d : Nat) :
    List ZipDirError × FileEntryBase :=
  let fe := { fe with nFileDataOffset := some d, nEOFOffset := some (d + fe.desc.lSizeCompressed) }
  if d ≥ cdrEndPos then (log ++ [.validationFailed], fe)
  else if im.toNat ≥ InitMethod.validate.toNat then
    (log ++ validateEntry uncompress crc32fn f fe.desc fe.nMethod d, fe)
  else (log, fe)

/-- `CacheFactory::InitDataOffset`: with encrypted headers the data offset
is derived from the CDR alone (local header offset + local header size +
CDR filename length, no extra-field length); otherwise the local file
header is read and cross-validated (descriptor, method, filename length,
case-insensitive filename) and the offset additionally includes the local
header's extra-field length.  `normName` is the entry name as already
normalised in the CDR buffer by `BuildFileEntryMap`. -/
def initDataOffset (uncompress : List Nat → Nat → ZlibResult) (crc32fn : List Nat → Nat)
    (im : InitMethod) (f : List Nat) (encryptedHeaders : Nat) (cdrEndPos : Nat)
    (fe : FileEntryBase) (h : CDRFileHeader) (normName : List Nat) :
    List ZipDirError × FileEntryBase :=
  if encryptedHeaders ≠ HEADERS_NOT_ENCRYPTED then
    initDataOffsetFinish uncompress crc32fn im f cdrEndPos [] fe
      (h.lLocalHeaderOffset + sizeofLocalFileHeader + h.nFileNameLength)
  else
    let rd := readOrZeros f h.lLocalHeaderOffset (sizeofLocalFileHeader + h.nFileNameLength)
    let rdLog : List ZipDirError := if rd.2 then [] else [.ioFailed]
    let lfh := readLocalFileHeader rd.1
    if h.desc ≠ lfh.desc ∨ h.nMethod ≠ lfh.nMethod ∨ h.nFileNameLength ≠ lfh.nFileNameLength then
      (rdLog ++ [.validationFailed], fe)
    else if ¬ namesMatchNoCase (rd.1.drop sizeofLocalFileHeader) normName then
      (rdLog ++ [.validationFailed], fe)
    else
      initDataOffsetFinish uncompress crc32fn im f cdrEndPos rdLog fe
        (h.lLocalHeaderOffset + sizeofLocalFileHeader + lfh.nFileNameLength + lfh.nExtraFieldLength)

/-- `CacheFactory::AddFileEntry`: bounds check against the CDR offset,
STORE-method size consistency check, then (only when headers are
encrypted or the init method is at least `full`, and the compressed size
is non-zero) `InitDataOffset`.  The result is the per-entry error log and
the entry to insert (`none` when the entry was skipped by one of the two
checks; a failed `InitDataOffset` still yields the entry, as the source
inserts it regardless). -/
def addFileEntry (uncompress : List Nat → Nat → ZlibResult) (crc32fn : List Nat → Nat)
    (im : InitMethod) (f : List Nat) (encryptedHeaders : Nat) (cdrOffset cdrEndPos : Nat)
    (normName : List Nat) (nameOffset : Nat) (h : CDRFileHeader) (ntfsTime : Nat) :
    List ZipDirError × Option FileEntryBase :=
  if h.lLocalHeaderOffset > cdrOffset then ([.cdrCorrupt], none)
  else if (h.nMethod = METHOD_STORE ∨ h.nMethod = METHOD_STORE_AND_STREAMCIPHER_KEYTABLE) ∧
      h.desc.lSizeUncompressed ≠ h.desc.lSizeCompressed then
    ([.validationFailed], none)
  else
    let fe := FileEntryBase.ofHeader h ntfsTime nameOffset
    if (encryptedHeaders ≠ HEADERS_NOT_ENCRYPTED ∨ im.toNat ≥ InitMethod.full.toNat) ∧
        h.desc.lSizeCompressed ≠ 0 then
      let r := initDataOffset uncompress crc32fn im f encryptedHeaders cdrEndPos fe h normName
      (r.1, some r.2)
    else ([], some fe)

/-- The directory tree, modelled from the spec (the `ZipDirTree` sources
are outside this snapshot) as an association list from normalised full
paths to file entries: insertion stores the entry at the leaf for that
path, replacing any previous entry at the same path.  The leaf count of
the tree is the length of the list. -/
abbrev FileEntryTree := List (List Nat × FileEntryBase)

/-- Tree insertion (`FileEntryTree::Add`): replace at an existing leaf,
otherwise append a new leaf. -/
def treeAdd (t : FileEntryTree) (k : List Nat) (v : FileEntryBase) : FileEntryTree :=
  if t.any (fun kv => kv.1 = k) then t.map (fun kv => if kv.1 = k then (k, v) else kv)
  else t ++ [(k, v)]

/-- Extra-field TLV walk of `BuildFileEntryMap`: recognise `EXTRA_NTFS`
(id 10) and extract the 8-byte last-modify time found 8 bytes into the
attribute data (after the `ExtraNTFSHeader`); unknown ids are skipped via
their declared size. -/
def parseExtras (b : List Nat) (stop : Nat) (pos : Nat) (acc : Nat) : Nat :=
  if _h : pos < stop then
    let dataSize := u16At b (pos + 2)
    let acc' := if u16At b pos = 10 then u64At b (pos + 4 + 8) else acc
    parseExtras b stop (pos + 4 + dataSize) acc'
  else acc
termination_by stop - pos
decreasing_by omega

/-- One parsed CDR record, as a derived view used to state counting
properties of the walk: the decoded header, the normalised name, the
directory flag (raw name ends in a separator), and the name's offset in
the CDR buffer. -/
structure CDRRecordView where
  hdr : CDRFileHeader
  normName : List Nat
  isDir : Bool
  nameOffset : Nat
deriving Repr, DecidableEq

/-- Raw name bytes of the record at `pos`. -/
def rawNameAt (b : List Nat) (pos : Nat) (len : Nat) : List Nat :=
  (b.drop (pos + sizeofCDRFileHeader)).take len

/-- Directory test of `BuildFileEntryMap`: non-empty name whose last byte
is one of the two separators. -/
def isDirectoryName (raw : List Nat) : Bool :=
  decide (raw ≠ []) && (raw.getLast? = some correctSeparator || raw.getLast? = some wrongSeparator)

/-- Derived record stream of the CDR walk (same loop structure and checks
as `buildFileEntryMap`, without the tree side effects): `none` when the
walk would abort on an unsupported version or a record overrunning the
buffer. -/
def cdrRecords (b : List Nat) (size : Nat) (pos : Nat) : Option (List CDRRecordView) :=
  if _h : pos + sizeofCDRFileHeader ≤ size then
    let hdr := readCDRFileHeaderAt b pos
    if hdr.nVersionNeeded % 256 > 20 then none
    else if pos + sizeofCDRFileHeader + hdr.nFileNameLength + hdr.nExtraFieldLength +
        hdr.nFileCommentLength > size then none
    else
      let raw := rawNameAt b pos hdr.nFileNameLength
      match cdrRecords b size (pos + sizeofCDRFileHeader + hdr.nFileNameLength +
          hdr.nExtraFieldLength + hdr.nFileCommentLength) with
      | none => none
      | some rest =>
        some (⟨hdr, normalizeName raw, isDirectoryName raw, pos + sizeofCDRFileHeader⟩ :: rest)
  else some []
termination_by size - pos
decreasing_by simp only [sizeofCDRFileHeader] at *; omega

/-- Main loop of `CacheFactory::BuildFileEntryMap` over the CDR buffer
`b` of `size = lCDRSize` bytes: per record, check the needed version,
check that the record does not overrun the buffer, parse the extra
fields, skip directory entries, and otherwise normalise the name in place
and call `AddFileEntry`, accumulating the tree and the per-entry logs.
A version or overrun failure aborts (no tree); per-entry failures do
not.  The in-place buffer mutations of the source (zeroed signature,
trailing NUL, lowercasing) never affect bytes later decoded by the walk,
so the walk over the immutable buffer is behaviourally identical. -/
def buildLoop (uncompress : List Nat → Nat → ZlibResult) (crc32fn : List Nat → Nat)
    (im : InitMethod) (f : List Nat) (encryptedHeaders : Nat) (cdrOffset cdrEndPos : Nat)
    (b : List Nat) (size : Nat) (pos : Nat) (t : FileEntryTree) (log : List ZipDirError) :
    List ZipDirError × Option FileEntryTree :=
  if _h : pos + sizeofCDRFileHeader ≤ size then
    let hdr := readCDRFileHeaderAt b pos
    if hdr.nVersionNeeded % 256 > 20 then (log ++ [.unsupported], none)
    else if pos + sizeofCDRFileHeader + hdr.nFileNameLength + hdr.nExtraFieldLength +
        hdr.nFileCommentLength > size then (log ++ [.cdrCorrupt], none)
    else
      let ntfsTime := parseExtras b
        (pos + sizeofCDRFileHeader + hdr.nFileNameLength + hdr.nExtraFieldLength)
        (pos + sizeofCDRFileHeader + hdr.nFileNameLength) 0
      let raw := rawNameAt b pos hdr.nFileNameLength
      if isDirectoryName raw then
        buildLoop uncompress crc32fn im f encryptedHeaders cdrOffset cdrEndPos b size
          (pos + sizeofCDRFileHeader + hdr.nFileNameLength + hdr.nExtraFieldLength +
            hdr.nFileCommentLength) t log
      else
        let nm := normalizeName raw
        let r := addFileEntry uncompress crc32fn im f encryptedHeaders cdrOffset cdrEndPos nm
          (pos + sizeofCDRFileHeader) hdr ntfsTime
        let t' := match r.2 with
          | some fe => treeAdd t nm fe
          | none => t
        buildLoop uncompress crc32fn im f encryptedHeaders cdrOffset cdrEndPos b size
          (pos + sizeofCDRFileHeader + hdr.nFileNameLength + hdr.nExtraFieldLength +
            hdr.nFileCommentLength) t' (log ++ r.1)
  else (log, some t)
termination_by size - pos
decreasing_by all_goals (simp only [sizeofCDRFileHeader] at *; omega)

/-- `CacheFactory::ReadHeaderData`: read the CDR bytes, then reject
archives whose headers are declared encrypted (unsupported in this build)
or whose signing kind is unknown; a CDR-signed archive is accepted with a
warning. -/
def readHeaderData (f : List Nat) (off size : Nat) (encryptedHeaders signedHeaders : Nat) :
    Option (List Nat) :=
  if off + size ≤ f.length then
    if encryptedHeaders ≠ HEADERS_NOT_ENCRYPTED then none
    else if signedHeaders = HEADERS_NOT_SIGNED ∨ signedHeaders = HEADERS_CDR_SIGNED then
      some ((f.drop off).take size)
    else none
  else none

/-- `CacheFactory::BuildFileEntryMap`: empty CDR yields an empty tree;
otherwise read the CDR into its buffer (a failure is `CorruptedData`) and
run the walk.  The buffer is allocated with 16 value-initialised slack
bytes, which the defaulting byte reads of the model mirror; the
`NoMemory` branch of the source fires only when the allocation of this
never-empty buffer fails and has no counterpart in the model. -/
def buildFileEntryMap (uncompress : List Nat → Nat → ZlibResult) (crc32fn : List Nat → Nat)
    (im : InitMethod) (f : List Nat) (st : PrepState) :
    List ZipDirError × Option FileEntryTree :=
  if st.cdrEnd.lCDRSize = 0 then ([], some [])
  else
    match readHeaderData f st.cdrEnd.lCDROffset st.cdrEnd.lCDRSize st.encryptedHeaders
        st.signedHeaders with
    | none => ([.corruptedData], none)
    | some b =>
      buildLoop uncompress crc32fn im f st.encryptedHeaders st.cdrEnd.lCDROffset st.cdrEndPos
        b st.cdrEnd.lCDRSize 0 [] []

/-- The walk of `BuildFileEntryMap` with its full observable state: the
log, the tree built so far (`m_treeFileEntries`, an out-parameter that
keeps the entries already inserted when the walk aborts), and the
boolean result of `BuildFileEntryMap`.  `buildLoop` above is the same
loop projected to the log-and-boolean view (`buildLoop_eq_buildLoopP`
below proves the two agree). -/
def buildLoopP (uncompress : List Nat → Nat → ZlibResult) (crc32fn : List Nat → Nat)
    (im : InitMethod) (f : List Nat) (encryptedHeaders : Nat) (cdrOffset cdrEndPos : Nat)
    (b : List Nat) (size : Nat) (pos : Nat) (t : FileEntryTree) (log : List ZipDirError) :
    List ZipDirError × FileEntryTree × Bool :=
  if _h : pos + sizeofCDRFileHeader ≤ size then
    let hdr := readCDRFileHeaderAt b pos
    if hdr.nVersionNeeded % 256 > 20 then (log ++ [.unsupported], t, false)
    else if pos + sizeofCDRFileHeader + hdr.nFileNameLength + hdr.nExtraFieldLength +
        hdr.nFileCommentLength > size then (log ++ [.cdrCorrupt], t, false)
    else
      let ntfsTime := parseExtras b
        (pos + sizeofCDRFileHeader + hdr.nFileNameLength + hdr.nExtraFieldLength)
        (pos + sizeofCDRFileHeader + hdr.nFileNameLength) 0
      let raw := rawNameAt b pos hdr.nFileNameLength
      if isDirectoryName raw then
        buildLoopP uncompress crc32fn im f encryptedHeaders cdrOffset cdrEndPos b size
          (pos + sizeofCDRFileHeader + hdr.nFileNameLength + hdr.nExtraFieldLength +
            hdr.nFileCommentLength) t log
      else
        let nm := normalizeName raw
        let r := addFileEntry uncompress crc32fn im f encryptedHeaders cdrOffset cdrEndPos nm
          (pos + sizeofCDRFileHeader) hdr ntfsTime
        let t' := match r.2 with
          | some fe => treeAdd t nm fe
          | none => t
        buildLoopP uncompress crc32fn im f encryptedHeaders cdrOffset cdrEndPos b size
          (pos + sizeofCDRFileHeader + hdr.nFileNameLength + hdr.nExtraFieldLength +
            hdr.nFileCommentLength) t' (log ++ r.1)
  else (log, t, true)
termination_by size - pos
decreasing_by all_goals (simp only [sizeofCDRFileHeader] at *; omega)

/-- `CacheFactory::BuildFileEntryMap` with the out-parameter tree
visible also on failure: the empty-CDR early exit succeeds with an
empty tree, a CDR read failure leaves the tree empty, and otherwise the
walk runs, keeping whatever it inserted before a mid-walk abort. -/
def buildFileEntryMapP (uncompress : List Nat → Nat → ZlibResult) (crc32fn : List Nat → Nat)
    (im : InitMethod) (f : List Nat) (st : PrepState) :
    List ZipDirError × FileEntryTree × Bool :=
  if st.cdrEnd.lCDRSize = 0 then ([], [], true)
  else
    match readHeaderData f st.cdrEnd.lCDROffset st.cdrEnd.lCDRSize st.encryptedHeaders
        st.signedHeaders with
    | none => ([.corruptedData], [], false)
    | some b =>
      buildLoopP uncompress crc32fn im f st.encryptedHeaders st.cdrEnd.lCDROffset st.cdrEndPos
        b st.cdrEnd.lCDRSize 0 [] []

/-- Successor boundary of the EOF-offset sweep: the local-header offset of
the entry with the least name offset above this entry's, or the CDR
offset when none exists. -/
def nextBoundary (all : List FileEntryBase) (e : FileEntryBase) (cdrOffset : Nat) : Nat :=
  match (all.filter fun x => e.nNameOffset < x.nNameOffset).foldr
      (fun x acc => match acc with
        | none => some x
        | some y => if x.nNameOffset < y.nNameOffset then some x else some y) none with
  | none => cdrOffset
  | some x => x.nFileHeaderOffset

/-- Modelled from the spec: the EOF-offset sweep
(`FileEntryList::RefreshEOFOffsets`, outside this snapshot) visits
entries in ascending name-offset order (the stable proxy for on-disk
order, spec section 5) and grants each entry the space up to the next
entry's region (the last one up to the CDR offset), recorded in its EOF
offset.  Tree structure, keys and all other entry fields are unchanged. -/
def refreshEOFOffsets (t : FileEntryTree) (cdrOffset : Nat) : FileEntryTree :=
  t.map fun kv => (kv.1, { kv.2 with nEOFOffset := some (nextBoundary (t.map Prod.snd) kv.2 cdrOffset) })

/-- The cache data produced by a successful `ReadCache`: the directory
tree (whose string pool is the CDR buffer), the CDR offset and the
recorded header encryption and signing kinds. -/
structure Cache where
  entries : FileEntryTree
  lCDROffset : Nat
  encryptedHeaders : Nat
  signedHeaders : Nat
deriving Repr, DecidableEq

/-- `CacheFactory::ReadCache` (the parsing core of `Factory::open` once
the file handle exists): `Prepare`, then the EOF-offset sweep, then hand
the tree to the cache.  The first component is the error log
(`THROW_ZIPDIR_ERROR` occurrences); the second is `none` exactly when
the open aborts.  `Prepare` discards the result of its final
`BuildFileEntryMap()` call and returns `true` (`ZipDirCacheFactory.cpp`
line 302), so only the failures before the CDR walk — `FindCDREnd`,
trailer decoding, the multivolume check and the CDR-range check — abort
the open; a CDR-walk failure is logged and the cache still escapes,
holding whatever the walk had built. -/
def readCache (uncompress : List Nat → Nat → ZlibResult) (crc32fn : List Nat → Nat)
    (im : InitMethod) (f : List Nat) : List ZipDirError × Option Cache :=
  match prepare f with
  | .error e => ([e], none)
  | .ok st =>
    let r := buildFileEntryMapP uncompress crc32fn im f st
    (r.1, some ⟨refreshEOFOffsets r.2.1 st.cdrEnd.lCDROffset, st.cdrEnd.lCDROffset,
      st.encryptedHeaders, st.signedHeaders⟩)

/-! Concrete byte-level archive builders, used to instantiate the theorems
on explicit inputs. -/

/-- Little-endian 16-bit encoding. -/
def le16 (n : Nat) : List Nat := [n % 256, n / 256 % 256]

/-- Little-endian 32-bit encoding. -/
def le32 (n : Nat) : List Nat := [n % 256, n / 256 % 256, n / 65536 % 256, n / 16777216 % 256]

/-- Build the 22 bytes of a `CDREnd` record. -/
def mkCDREnd (nDisk nCDRStartDisk entriesOnDisk entriesTotal cdrSize cdrOffset commentLen : Nat) :
    List Nat :=
  le32 CDREndSignature ++ le16 nDisk ++ le16 nCDRStartDisk ++ le16 entriesOnDisk ++
    le16 entriesTotal ++ le32 cdrSize ++ le32 cdrOffset ++ le16 commentLen

/-- Build a 46 + name-length byte CDR file record with empty extra field
and comment. -/
def mkCDRRecord (versionNeeded method crc csize usize localOff : Nat) (name : List Nat) :
    List Nat :=
  le32 0x02014b50 ++ le16 20 ++ le16 versionNeeded ++ le16 0 ++ le16 method ++ le16 0 ++
    le16 0 ++ le32 crc ++ le32 csize ++ le32 usize ++ le16 name.length ++ le16 0 ++ le16 0 ++
    le16 0 ++ le16 0 ++ le32 0 ++ le32 localOff ++ name

/-- Build a 30 + name-length byte local file header (without the extra
field bytes themselves, which the factory never reads). -/
def mkLocalFileHeader (method crc csize usize extraLen : Nat) (name : List Nat) : List Nat :=
  le32 0x04034b50 ++ le16 20 ++ le16 0 ++ le16 method ++ le16 0 ++ le16 0 ++ le32 crc ++
    le32 csize ++ le32 usize ++ le16 name.length ++ le16 extraLen ++ name

/-- Stub decompressor, for instantiating the abstract zlib parameter on
inputs where validation never runs. -/
def uncompressStub : List Nat → Nat → ZlibResult := fun _ _ => ZlibResult.otherError

/-- Stub CRC32, for instantiating the abstract CRC parameter on inputs
where validation never runs. -/
def crc32Stub : List Nat → Nat := fun _ => 0

/-- Archive with two stored entries, the first of which declares
inconsistent STORE sizes (compressed 5, uncompressed 6): its CDR record
fails `AddFileEntry`'s STORE check. -/
def archivePartial : List Nat :=
  mkCDRRecord 20 METHOD_STORE 0 5 6 0 [97] ++ mkCDRRecord 20 METHOD_STORE 0 3 3 0 [98] ++
    mkCDREnd 0 0 2 2 94 0 0

/-- Archive whose single entry has a local-header offset equal to the CDR
offset (47): 47 zero filler bytes, one CDR record, the EOCD. -/
def archiveEqualOffset : List Nat :=
  List.replicate 47 0 ++ mkCDRRecord 20 METHOD_STORE 0 0 0 47 [97] ++ mkCDREnd 0 0 1 1 47 47 0

/-- A bare EOCD whose comment length field says 1 while no comment
follows: the comment-length consistency check fails at the signature. -/
def archiveCommentMismatch : List Nat := mkCDREnd 0 0 0 0 0 0 1

/-- Archive declaring encryption both ways: legacy hint bits 14-15 of the
disk field (value 1) and a well-formed extended trailer with
encryption kind 3 (streamcipher-keytable). -/
def archiveLegacyAndNew : List Nat :=
  mkCDREnd 16384 0 0 0 0 0 sizeofExtendedTrailer ++
    (le16 sizeofExtendedTrailer ++ le16 HEADERS_ENCRYPTED_STREAMCIPHER_KEYTABLE ++
      le16 HEADERS_NOT_SIGNED)

/-- Archive with a well-formed plain extended trailer (no encryption, no
signing) and the exactly matching comment length. -/
def archiveTrailerOk : List Nat :=
  mkCDREnd 0 0 0 0 0 0 sizeofExtendedTrailer ++
    (le16 sizeofExtendedTrailer ++ le16 HEADERS_NOT_ENCRYPTED ++ le16 HEADERS_NOT_SIGNED)

/-- Archive with a well-formed plain extended trailer but a comment length
of 7, one more than the expected trailing length. -/
def archiveTrailerLong : List Nat :=
  mkCDREnd 0 0 0 0 0 0 7 ++
    (le16 sizeofExtendedTrailer ++ le16 HEADERS_NOT_ENCRYPTED ++ le16 HEADERS_NOT_SIGNED) ++ [0]

/-- Archive with EOCD disk 1 (a multi-volume marker) and a comment that
holds a malformed extended trailer (self-size 7). -/
def archiveDiskOneBadTrailer : List Nat :=
  mkCDREnd 1 0 0 0 0 0 8 ++ (le16 7 ++ le16 0 ++ le16 0 ++ le16 0)

/-- Archive with EOCD disk 1 and no comment at all. -/
def archiveDiskOne : List Nat := mkCDREnd 1 0 0 0 0 0 0

/-- Archive whose CDR holds one file entry with inconsistent STORE sizes
(rejected by `AddFileEntry`) and one directory entry. -/
def archiveDirSkip : List Nat :=
  mkCDRRecord 20 METHOD_STORE 0 1 2 0 [97] ++ mkCDRRecord 20 METHOD_STORE 0 0 0 0 [100, 47] ++
    mkCDREnd 0 0 2 2 95 0 0

/-- Archive whose CDR holds exactly one well-formed stored file entry. -/
def archiveOneFile : List Nat :=
  mkCDRRecord 20 METHOD_STORE 0 0 0 0 [97] ++ mkCDREnd 0 0 1 1 47 0 0

/-- CDR header literal used for the `InitDataOffset` instances: a stored
entry of one byte named `a` at local-header offset 0. -/
def hdrStoreA : CDRFileHeader :=
  ⟨0, 20, 20, 0, METHOD_STORE, 0, 0, ⟨7, 1, 1⟩, 1, 0, 0, 0, 0, 0, 0⟩

/-- File whose offset 0 holds a local file header matching `hdrStoreA`
except for a non-zero extra-field length of 4. -/
def fileWithExtraField : List Nat := mkLocalFileHeader METHOD_STORE 7 1 1 4 [97]

/-- CDR header literal with zero compressed size for the C10 instances. -/
def hdrZeroSize : CDRFileHeader :=
  ⟨0, 20, 20, 0, METHOD_STORE, 0, 0, ⟨0, 0, 0⟩, 1, 0, 0, 0, 0, 0, 5⟩

/-- The NTFS-time extraction of the walk, expressed through the record
view `r` (the walk calls `parseExtras` over `r`'s extra-field range). -/
def recordExtras (b : List Nat) (r : CDRRecordView) : Nat :=
  parseExtras b (r.nameOffset + r.hdr.nFileNameLength + r.hdr.nExtraFieldLength)
    (r.nameOffset + r.hdr.nFileNameLength) 0

/-- A record the walk accepts: `AddFileEntry` yields an entry for it. -/
def recordAccepted (uncompress : List Nat → Nat → ZlibResult) (crc32fn : List Nat → Nat)
    (im : InitMethod) (f : List Nat) (encryptedHeaders : Nat) (cdrOffset cdrEndPos : Nat)
    (b : List Nat) (r : CDRRecordView) : Bool :=
  (addFileEntry uncompress crc32fn im f encryptedHeaders cdrOffset cdrEndPos r.normName
    r.nameOffset r.hdr (recordExtras b r)).2.isSome

/-- Error tags that only the per-entry validation path (`AddFileEntry`,
`InitDataOffset`, `Validate`) emits; the open logs them and continues.
`corruptedData` is excluded: besides `Validate`'s length check it also
tags the aborting CDR-read failure of `BuildFileEntryMap`. -/
def isPerEntryOnlyError : ZipDirError → Bool
  | .validationFailed => true
  | .ioFailed => true
  | .crc32Check => true
  | .zlibNoMemory => true
  | .zlibCorrupted => true
  | .zlibFailed => true
  | _ => false

/-- The entry built from `archivePartial`'s surviving record `b`, after
the EOF-offset sweep. -/
def fePartialB : FileEntryBase := ⟨⟨0, 3, 3⟩, 0, none, some 0, 0, 93, 0, 0, 0⟩

/-- The partial cache escaping from `archivePartial`: only the entry
`b`; the entry `a` failed validation. -/
def cachePartial : Cache := ⟨[([98], fePartialB)], 0, 0, 0⟩

/-- The single entry of `archiveOneFile` before the EOF-offset sweep. -/
def feOneFilePre : FileEntryBase := ⟨⟨0, 0, 0⟩, 0, none, none, 0, 46, 0, 0, 0⟩

/-- The single entry of `archiveOneFile` after the EOF-offset sweep. -/
def feOneFile : FileEntryBase := ⟨⟨0, 0, 0⟩, 0, none, some 0, 0, 46, 0, 0, 0⟩

/-- The tree built from `archiveOneFile`'s CDR. -/
def treeOneFile : FileEntryTree := [([97], feOneFilePre)]

/-- The cache produced from `archiveOneFile`. -/
def cacheOneFile : Cache := ⟨[([97], feOneFile)], 0, 0, 0⟩

/-- The prepare state of `archiveOneFile`. -/
def stOneFile : PrepState := ⟨⟨101010256, 0, 0, 1, 1, 47, 0, 0⟩, 47, 0, 0⟩

/-- The CDR buffer of `archiveOneFile`. -/
def bufOneFile : List Nat := mkCDRRecord 20 METHOD_STORE 0 0 0 0 [97]

/-- The decoded CDR record of `archiveOneFile`. -/
def hdrOneFile : CDRFileHeader := ⟨33639248, 20, 20, 0, 0, 0, 0, ⟨0, 0, 0⟩, 1, 0, 0, 0, 0, 0, 0⟩

/-- The record stream of `archiveOneFile`'s CDR. -/
def rsOneFile : List CDRRecordView := [⟨hdrOneFile, [97], false, 46⟩]

/-- The entry of `archiveEqualOffset`, whose local-header offset 47
equals the CDR offset, after the EOF-offset sweep. -/
def feEqualOffset : FileEntryBase := ⟨⟨0, 0, 0⟩, 47, none, some 47, 0, 46, 0, 0, 0⟩

/-- The cache produced from `archiveEqualOffset`. -/
def cacheEqualOffset : Cache := ⟨[([97], feEqualOffset)], 47, 0, 0⟩

/-- The CDR buffer of `archiveDirSkip`. -/
def bufDirSkip : List Nat :=
  mkCDRRecord 20 METHOD_STORE 0 1 2 0 [97] ++ mkCDRRecord 20 METHOD_STORE 0 0 0 0 [100, 47]

/-- The prepare state of `archiveDirSkip`. -/
def stDirSkip : PrepState := ⟨⟨101010256, 0, 0, 2, 2, 95, 0, 0⟩, 95, 0, 0⟩

/-- The decoded first (file, rejected) record of `archiveDirSkip`. -/
def hdrDirA : CDRFileHeader := ⟨33639248, 20, 20, 0, 0, 0, 0, ⟨0, 1, 2⟩, 1, 0, 0, 0, 0, 0, 0⟩

/-- The decoded second (directory) record of `archiveDirSkip`. -/
def hdrDirD : CDRFileHeader := ⟨33639248, 20, 20, 0, 0, 0, 0, ⟨0, 0, 0⟩, 2, 0, 0, 0, 0, 0, 0⟩

/-- The record stream of `archiveDirSkip`'s CDR. -/
def rsDirSkip : List CDRRecordView :=
  [⟨hdrDirA, [97], false, 46⟩, ⟨hdrDirD, [100, 47], true, 93⟩]

/-- Archive whose CDR holds one well-formed stored entry `a` followed by
a record requiring version 21: the walk aborts at the second record with
the first already inserted. -/
def archiveAbortMid : List Nat :=
  mkCDRRecord 20 METHOD_STORE 0 0 0 0 [97] ++ mkCDRRecord 21 METHOD_STORE 0 0 0 0 [98] ++
    mkCDREnd 0 0 2 2 94 0 0

/-- The entry `a` of `archiveAbortMid` after the EOF-offset sweep. -/
def feAbortMid : FileEntryBase := ⟨⟨0, 0, 0⟩, 0, none, some 0, 0, 46, 0, 0, 0⟩

/-- The partial cache escaping from `archiveAbortMid`'s aborted walk. -/
def cacheAbortMid : Cache := ⟨[([97], feAbortMid)], 0, 0, 0⟩

/-! General lemmas about the EOCD scan. -/

/-- Reads past the end of the byte list yield 0. -/
theorem byteD_of_length_le (l : List Nat) (i : Nat) (h : l.length ≤ i) : byteD l i = 0 := by
  have h2 : l[i]? = none := List.getElem?_eq_none h
  simp [byteD, List.getD, h2]

/-- A successful scan returns a position no higher than its start. -/
theorem scanFrom_ok_le (f : List Nat) (low : Nat) :
    ∀ p c q, scanFrom f low p = .ok (c, q) → q ≤ p := by
  intro p
  induction p with
  | zero =>
    intro c q h
    simp only [scanFrom] at h
    split_ifs at h <;>
      first
        | (simp only [Except.ok.injEq, Prod.mk.injEq] at h; omega)
        | simp at h
  | succ p ih =>
    intro c q h
    simp only [scanFrom] at h
    split_ifs at h <;>
      first
        | (simp only [Except.ok.injEq, Prod.mk.injEq] at h; omega)
        | exact le_trans (ih c q h) (Nat.le_succ p)
        | simp at h

/-- The scan never reports the size-gate outcomes. -/
theorem scanFrom_no_size_error (f : List Nat) (low : Nat) :
    ∀ p, scanFrom f low p ≠ .error .tooSmall ∧ scanFrom f low p ≠ .error .tooLargeFatal := by
  intro p
  induction p with
  | zero =>
    refine ⟨?_, ?_⟩ <;> (simp only [scanFrom]; split_ifs <;> simp)
  | succ p ih =>
    refine ⟨?_, ?_⟩
    · simp only [scanFrom]; split_ifs <;> first | exact ih.1 | simp
    · simp only [scanFrom]; split_ifs <;> first | exact ih.2 | simp

/-- Positions above `p` hold no signature, so the scan from `start` walks
down to `p` unchanged (assuming the clamp is at or below `p`). -/
theorem scanFrom_skip (f : List Nat) (low : Nat) (p : Nat)
    (hnone : ∀ q, p < q → (readCDREndAt f q).lSignature ≠ CDREndSignature)
    (hlow : low ≤ p) :
    ∀ start, p ≤ start → scanFrom f low start = scanFrom f low p := by
  intro start
  induction start with
  | zero =>
    intro h
    have hp0 : p = 0 := Nat.le_zero.mp h
    rw [hp0]
  | succ s ih =>
    intro h
    rcases Nat.eq_or_lt_of_le h with heq | hlt
    · rw [heq]
    · have hps : p ≤ s := Nat.lt_succ_iff.mp hlt
      rw [show scanFrom f low (s + 1) = scanFrom f low s by
        simp only [scanFrom]
        rw [if_neg (hnone (s + 1) hlt), if_neg (by omega : ¬ s + 1 ≤ low)]]
      exact ih hps

/-- A scan position whose bytes carry the EOCD signature but an
inconsistent comment length yields `DataCorrupt`. -/
theorem scanFrom_sig_mismatch (f : List Nat) (low : Nat) (p : Nat)
    (hsig : (readCDREndAt f p).lSignature = CDREndSignature)
    (hbad : (readCDREndAt f p).nCommentLength ≠ f.length - p - sizeofCDREnd) :
    scanFrom f low p = .error .dataCorrupt := by
  cases p with
  | zero => simp only [scanFrom, hsig, if_true]; rw [if_neg (by simpa using hbad)]
  | succ q => simp only [scanFrom, hsig, if_true]; rw [if_neg hbad]

/-- C9: the CDR-end locator enforces its size bounds before any scanning:
a file of more than `2^31` bytes is rejected fatally whatever its
contents, a file smaller than a `CDREnd` record fails as too small
whatever its contents, and a file of exactly `2^31` bytes passes both
gates and proceeds to the backwards scan (which can only produce a scan
outcome, never a size-gate outcome). -/
theorem zipdir_c9_size_gates (f : List Nat) :
    (f.length > 2 ^ 31 → findCDREnd f = .error .tooLargeFatal) ∧
    (f.length < sizeofCDREnd → findCDREnd f = .error .tooSmall) ∧
    (f.length = 2 ^ 31 →
      findCDREnd f = scanFrom f (scanLow f.length) (f.length - sizeofCDREnd) ∧
      findCDREnd f ≠ .error .tooSmall ∧ findCDREnd f ≠ .error .tooLargeFatal) := by
  refine ⟨fun h => ?_, fun h => ?_, fun h => ?_⟩
  · simp only [findCDREnd, if_pos h]
  · have h2 : ¬ f.length > 2 ^ 31 := by
      simp only [sizeofCDREnd] at h; omega
    simp only [findCDREnd, if_neg h2, if_pos h]
  · have h1 : ¬ f.length > 2 ^ 31 := by omega
    have h2 : ¬ f.length < sizeofCDREnd := by
      simp only [sizeofCDREnd]; omega
    have heq : findCDREnd f = scanFrom f (scanLow f.length) (f.length - sizeofCDREnd) := by
      simp only [findCDREnd, if_neg h1, if_neg h2]
    refine ⟨heq, ?_, ?_⟩
    · rw [heq]; exact (scanFrom_no_size_error f _ _).1
    · rw [heq]; exact (scanFrom_no_size_error f _ _).2

/-- Witness for C9 on concrete inputs: a file of `2^31 + 1` zero bytes is
rejected fatally, and the empty file is rejected as too small. -/
theorem zipdir_c9_size_gates_witness :
    findCDREnd (List.replicate (2 ^ 31 + 1) 0) = .error .tooLargeFatal ∧
    findCDREnd [] = .error .tooSmall := by
  constructor
  · exact (zipdir_c9_size_gates _).1 (by rw [List.length_replicate]; omega)
  · exact (zipdir_c9_size_gates _).2.1 (by decide)

/-- C3: when the topmost scan position carrying the EOCD signature has a
comment length differing from `fileSize - p - sizeofCDREnd`, the locator
raises `DataCorrupt` at once; it never keeps searching at lower offsets,
so the outcome is `DataCorrupt` and in particular not `NoCdr`. -/
theorem zipdir_c3_comment_mismatch (f : List Nat) (p : Nat)
    (hsize : f.length ≤ 2 ^ 31) (hmin : sizeofCDREnd ≤ f.length)
    (hlow : scanLow f.length ≤ p) (htop : p ≤ f.length - sizeofCDREnd)
    (hsig : (readCDREndAt f p).lSignature = CDREndSignature)
    (hnone : ∀ q, p < q → (readCDREndAt f q).lSignature ≠ CDREndSignature)
    (hbad : (readCDREndAt f p).nCommentLength ≠ f.length - p - sizeofCDREnd) :
    findCDREnd f = .error .dataCorrupt := by
  have h1 : ¬ f.length > 2 ^ 31 := by omega
  have h2 : ¬ f.length < sizeofCDREnd := by omega
  rw [findCDREnd, if_neg h1, if_neg h2, scanFrom_skip f _ p hnone hlow _ htop]
  exact scanFrom_sig_mismatch f _ p hsig hbad

/-- Witness for C3: a bare EOCD whose comment-length field was mutated to
1 (the true trailing comment is empty) is rejected as `DataCorrupt`, not
`NoCdr`. -/
theorem zipdir_c3_comment_mismatch_witness :
    findCDREnd archiveCommentMismatch = .error .dataCorrupt := by
  refine zipdir_c3_comment_mismatch archiveCommentMismatch 0 (by decide) (by decide)
    (by decide) (by decide) (by decide) ?_ (by decide)
  intro q hq
  by_cases hq22 : q ≤ 22
  · interval_cases q <;> decide
  · have hlen : archiveCommentMismatch.length = 22 := by decide
    have hb : ∀ i, 22 ≤ i → byteD archiveCommentMismatch i = 0 := fun i hi =>
      byteD_of_length_le _ _ (by omega)
    have hz : (readCDREndAt archiveCommentMismatch q).lSignature = 0 := by
      simp [readCDREndAt, u32At, hb q (by omega), hb (q + 1) (by omega),
        hb (q + 2) (by omega), hb (q + 3) (by omega)]
    rw [hz]
    decide

/-! Lemmas about the trailer decoder and `Prepare`. -/

/-- When the extended trailer declares an encryption kind while the legacy
disk-bits hint is also set, the trailer decoder rejects the archive. -/
theorem decodeTrailers_ambiguous (f : List Nat) (c : CDREnd) (e0 : Nat)
    (hhs : (readExtendedTrailerAt f ((c.lCDROffset + c.lCDRSize + sizeofCDREnd) % 2 ^ 32)).nHeaderSize
      = sizeofExtendedTrailer)
    (henc : (readExtendedTrailerAt f ((c.lCDROffset + c.lCDRSize + sizeofCDREnd) % 2 ^ 32)).nEncryption
      ≠ HEADERS_NOT_ENCRYPTED)
    (he0 : e0 ≠ HEADERS_NOT_ENCRYPTED) :
    decodeTrailers f c e0 = .error .dataCorrupt := by
  simp only [decodeTrailers]
  rw [if_neg (not_not_intro hhs), if_pos ⟨henc, he0⟩]

/-- A successful trailer decode forces the comment length to be the exact
sum of the present trailer sizes. -/
theorem decodeTrailers_ok_comment (f : List Nat) (c : CDREnd) (e0 : Nat) (encH sgH : Nat)
    (h : decodeTrailers f c e0 = .ok (encH, sgH)) :
    c.nCommentLength = sizeofExtendedTrailer +
      (if encH = HEADERS_ENCRYPTED_STREAMCIPHER_KEYTABLE then sizeofEncryptionTrailer else 0) +
      (if sgH = HEADERS_CDR_SIGNED then sizeofSignatureTrailer else 0) := by
  simp only [decodeTrailers] at h
  split_ifs at h <;>
    simp_all [HEADERS_NOT_ENCRYPTED, HEADERS_NOT_SIGNED, HEADERS_CDR_SIGNED,
      HEADERS_ENCRYPTED_STREAMCIPHER_KEYTABLE, sizeofExtendedTrailer,
      sizeofEncryptionTrailer, sizeofSignatureTrailer] <;>
    (try split_ifs at h) <;>
    (try simp only [Prod.ext_iff] at h) <;>
    simp_all
  all_goals try omega
  all_goals
    (rw [show encH = 0 from by simpa using (congrArg Prod.fst h).symm,
         show sgH = 0 from by simpa using (congrArg Prod.snd h).symm]
     norm_num)

/-- A well-formed extended trailer with recognised kinds but a comment
length differing from the exact sum of the present trailer sizes is
rejected as corrupt. -/
theorem decodeTrailers_wrong_length (f : List Nat) (c : CDREnd) (e0 encV sgV : Nat)
    (hhs : (readExtendedTrailerAt f ((c.lCDROffset + c.lCDRSize + sizeofCDREnd) % 2 ^ 32)).nHeaderSize
      = sizeofExtendedTrailer)
    (hamb : ¬((readExtendedTrailerAt f ((c.lCDROffset + c.lCDRSize + sizeofCDREnd) % 2 ^ 32)).nEncryption
      ≠ HEADERS_NOT_ENCRYPTED ∧ e0 ≠ HEADERS_NOT_ENCRYPTED))
    (he : (readExtendedTrailerAt f ((c.lCDROffset + c.lCDRSize + sizeofCDREnd) % 2 ^ 32)).nEncryption
      = encV)
    (hs2 : (readExtendedTrailerAt f ((c.lCDROffset + c.lCDRSize + sizeofCDREnd) % 2 ^ 32)).nSigning
      = sgV)
    (hek : encV = HEADERS_NOT_ENCRYPTED ∨ encV = HEADERS_ENCRYPTED_STREAMCIPHER_KEYTABLE)
    (hsk : sgV = HEADERS_NOT_SIGNED ∨ sgV = HEADERS_CDR_SIGNED)
    (hne : c.nCommentLength ≠ sizeofExtendedTrailer +
      (if encV = HEADERS_ENCRYPTED_STREAMCIPHER_KEYTABLE then sizeofEncryptionTrailer else 0) +
      (if sgV = HEADERS_CDR_SIGNED then sizeofSignatureTrailer else 0)) :
    decodeTrailers f c e0 = .error .dataCorrupt := by
  simp only [decodeTrailers]
  rw [if_neg (not_not_intro hhs), if_neg hamb]
  rcases hek with rfl | rfl <;> rcases hsk with rfl | rfl <;>
    norm_num [HEADERS_NOT_ENCRYPTED, HEADERS_NOT_SIGNED, HEADERS_CDR_SIGNED,
      HEADERS_ENCRYPTED_STREAMCIPHER_KEYTABLE, sizeofExtendedTrailer,
      sizeofEncryptionTrailer, sizeofSignatureTrailer] at hne <;>
    simp only [he, hs2, HEADERS_NOT_ENCRYPTED, HEADERS_NOT_SIGNED, HEADERS_CDR_SIGNED,
      HEADERS_ENCRYPTED_STREAMCIPHER_KEYTABLE, sizeofExtendedTrailer,
      sizeofEncryptionTrailer, sizeofSignatureTrailer] <;>
    norm_num <;>
    first | rfl | (intros; simp_all)

/-- C5: if the legacy encryption hint in bits 14-15 of the EOCD disk
field denotes TEA or streamcipher encryption and the extended trailer
also declares a non-none encryption kind, the open fails with
`DataCorrupt` (here under a well-formed trailer self-size; a malformed
self-size fails with `DataCorrupt` even earlier). -/
theorem zipdir_c5_ambiguous_encryption (uncompress : List Nat → Nat → ZlibResult)
    (crc32fn : List Nat → Nat) (im : InitMethod) (f : List Nat) (c0 : CDREnd) (pos : Nat)
    (hf : findCDREnd f = .ok (c0, pos))
    (hlegacy : c0.nDisk / 16384 = HEADERS_ENCRYPTED_TEA ∨
      c0.nDisk / 16384 = HEADERS_ENCRYPTED_STREAMCIPHER)
    (hcl : c0.nCommentLength ≥ sizeofExtendedTrailer)
    (hhs : (readExtendedTrailerAt f ((c0.lCDROffset + c0.lCDRSize + sizeofCDREnd) % 2 ^ 32)).nHeaderSize
      = sizeofExtendedTrailer)
    (henc : (readExtendedTrailerAt f ((c0.lCDROffset + c0.lCDRSize + sizeofCDREnd) % 2 ^ 32)).nEncryption
      ≠ HEADERS_NOT_ENCRYPTED) :
    prepare f = .error .dataCorrupt ∧
    readCache uncompress crc32fn im f = ([.dataCorrupt], none) := by
  have he0 : legacyEncryption c0.nDisk ≠ HEADERS_NOT_ENCRYPTED := by
    rcases hlegacy with h | h <;>
      simp [legacyEncryption, h, HEADERS_ENCRYPTED_TEA, HEADERS_ENCRYPTED_STREAMCIPHER,
        HEADERS_NOT_ENCRYPTED]
  have hd : decodeTrailers f (maskDisk c0) (legacyEncryption c0.nDisk) = .error .dataCorrupt :=
    decodeTrailers_ambiguous f (maskDisk c0) _ hhs henc he0
  have hcl2 : (maskDisk c0).nCommentLength ≥ sizeofExtendedTrailer := hcl
  have hp : prepare f = .error .dataCorrupt := by
    simp only [prepare, hf]
    rw [if_pos hcl2, hd]
  exact ⟨hp, by simp only [readCache, hp]⟩

/-- Witness for C5: a concrete archive declaring TEA-or-streamcipher via
the disk bits and streamcipher-keytable via the extended trailer is
rejected as `DataCorrupt`. -/
theorem zipdir_c5_ambiguous_encryption_witness :
    prepare archiveLegacyAndNew = .error .dataCorrupt ∧
    readCache uncompressStub crc32Stub InitMethod.default archiveLegacyAndNew
      = ([.dataCorrupt], none) :=
  zipdir_c5_ambiguous_encryption uncompressStub crc32Stub InitMethod.default archiveLegacyAndNew
    ⟨101010256, 16384, 0, 0, 0, 0, 0, 6⟩ 0 rfl (by decide) (by decide) (by decide) (by decide)

/-- C6: whenever the comment is at least an extended trailer long,
trailer decoding succeeds only when the comment length equals exactly the
sum of the present trailer sizes (first conjunct), and a well-formed
trailer with recognised kinds but any other comment length makes the open
fail with `DataCorrupt` (second conjunct). -/
theorem zipdir_c6_comment_exact (f : List Nat) (c0 : CDREnd) (pos : Nat) (st : PrepState) :
    (prepare f = .ok st → st.cdrEnd.nCommentLength ≥ sizeofExtendedTrailer →
      st.cdrEnd.nCommentLength = sizeofExtendedTrailer +
        (if st.encryptedHeaders = HEADERS_ENCRYPTED_STREAMCIPHER_KEYTABLE then
          sizeofEncryptionTrailer else 0) +
        (if st.signedHeaders = HEADERS_CDR_SIGNED then sizeofSignatureTrailer else 0)) ∧
    (findCDREnd f = .ok (c0, pos) → c0.nCommentLength ≥ sizeofExtendedTrailer →
      ∀ encV sgV : Nat,
      (readExtendedTrailerAt f ((c0.lCDROffset + c0.lCDRSize + sizeofCDREnd) % 2 ^ 32)).nHeaderSize
        = sizeofExtendedTrailer →
      ¬((readExtendedTrailerAt f ((c0.lCDROffset + c0.lCDRSize + sizeofCDREnd) % 2 ^ 32)).nEncryption
        ≠ HEADERS_NOT_ENCRYPTED ∧ legacyEncryption c0.nDisk ≠ HEADERS_NOT_ENCRYPTED) →
      (readExtendedTrailerAt f ((c0.lCDROffset + c0.lCDRSize + sizeofCDREnd) % 2 ^ 32)).nEncryption
        = encV →
      (readExtendedTrailerAt f ((c0.lCDROffset + c0.lCDRSize + sizeofCDREnd) % 2 ^ 32)).nSigning
        = sgV →
      (encV = HEADERS_NOT_ENCRYPTED ∨ encV = HEADERS_ENCRYPTED_STREAMCIPHER_KEYTABLE) →
      (sgV = HEADERS_NOT_SIGNED ∨ sgV = HEADERS_CDR_SIGNED) →
      c0.nCommentLength ≠ sizeofExtendedTrailer +
        (if encV = HEADERS_ENCRYPTED_STREAMCIPHER_KEYTABLE then sizeofEncryptionTrailer else 0) +
        (if sgV = HEADERS_CDR_SIGNED then sizeofSignatureTrailer else 0) →
      prepare f = .error .dataCorrupt) := by
  constructor
  · intro hp hcl
    cases hfind : findCDREnd f with
    | error e => simp [prepare, hfind] at hp
    | ok cp =>
      obtain ⟨c0x, posx⟩ := cp
      simp only [prepare, hfind] at hp
      cases hd : (if (maskDisk c0x).nCommentLength ≥ sizeofExtendedTrailer then
          decodeTrailers f (maskDisk c0x) (legacyEncryption c0x.nDisk)
        else .ok (legacyEncryption c0x.nDisk, HEADERS_NOT_SIGNED)) with
      | error e => rw [hd] at hp; simp at hp
      | ok es =>
        obtain ⟨encH, sgH⟩ := es
        rw [hd] at hp
        split_ifs at hp with h1 h2
        all_goals simp only [Except.ok.injEq, reduceCtorEq] at hp
        all_goals try exact hp.elim
        subst hp
        dsimp only at hcl ⊢
        rw [if_pos hcl] at hd
        simpa using decodeTrailers_ok_comment f (maskDisk c0x)
          (legacyEncryption c0x.nDisk) encH sgH hd
  · intro hf hcl encV sgV hhs hamb he hs2 hek hsk hne
    have hd := decodeTrailers_wrong_length f (maskDisk c0) (legacyEncryption c0.nDisk)
      encV sgV hhs hamb he hs2 hek hsk hne
    have hcl2 : (maskDisk c0).nCommentLength ≥ sizeofExtendedTrailer := hcl
    simp only [prepare, hf]
    rw [if_pos hcl2, hd]

/-- Witness for C6: an archive with a plain extended trailer and the
exact comment length 6 opens past the trailer stage with that equality,
and the same trailer with comment length 7 is rejected as corrupt. -/
theorem zipdir_c6_comment_exact_witness :
    (⟨⟨101010256, 0, 0, 0, 0, 0, 0, 6⟩, 0, 0, 0⟩ : PrepState).cdrEnd.nCommentLength =
      sizeofExtendedTrailer +
      (if (⟨⟨101010256, 0, 0, 0, 0, 0, 0, 6⟩, 0, 0, 0⟩ : PrepState).encryptedHeaders =
        HEADERS_ENCRYPTED_STREAMCIPHER_KEYTABLE then sizeofEncryptionTrailer else 0) +
      (if (⟨⟨101010256, 0, 0, 0, 0, 0, 0, 6⟩, 0, 0, 0⟩ : PrepState).signedHeaders =
        HEADERS_CDR_SIGNED then sizeofSignatureTrailer else 0) ∧
    prepare archiveTrailerLong = .error .dataCorrupt := by
  constructor
  · exact (zipdir_c6_comment_exact archiveTrailerOk ⟨0, 0, 0, 0, 0, 0, 0, 0⟩ 0
      ⟨⟨101010256, 0, 0, 0, 0, 0, 0, 6⟩, 0, 0, 0⟩).1 rfl (by decide)
  · exact (zipdir_c6_comment_exact archiveTrailerLong ⟨101010256, 0, 0, 0, 0, 0, 0, 7⟩ 0
      ⟨⟨0, 0, 0, 0, 0, 0, 0, 0⟩, 0, 0, 0⟩).2 rfl (by decide) 0 0 (by decide) (by decide)
      (by decide) (by decide) (by decide) (by decide) (by decide)

/-- C7 (amended): provided the trailer stage passes (no trailer present,
or the trailer decodes successfully), an EOCD with a non-zero masked disk
number, a non-zero CDR start disk, or differing entry counts makes the
open fail with `Unsupported`; a trailer-decoding failure preempts this
check with `DataCorrupt`, so the claim's unconditional form is corrected
by the counterexample below. -/
theorem zipdir_c7_multivolume (uncompress : List Nat → Nat → ZlibResult)
    (crc32fn : List Nat → Nat) (im : InitMethod) (f : List Nat) (c0 : CDREnd) (pos : Nat)
    (es : Nat × Nat)
    (hf : findCDREnd f = .ok (c0, pos))
    (ht : (if (maskDisk c0).nCommentLength ≥ sizeofExtendedTrailer then
            decodeTrailers f (maskDisk c0) (legacyEncryption c0.nDisk)
          else .ok (legacyEncryption c0.nDisk, HEADERS_NOT_SIGNED)) = .ok es)
    (hmv : (maskDisk c0).nDisk ≠ 0 ∨ (maskDisk c0).nCDRStartDisk ≠ 0 ∨
      (maskDisk c0).numEntriesOnDisk ≠ (maskDisk c0).numEntriesTotal) :
    prepare f = .error .unsupported ∧
    readCache uncompress crc32fn im f = ([.unsupported], none) := by
  obtain ⟨encH, sgH⟩ := es
  have hp : prepare f = .error .unsupported := by
    simp only [prepare, hf, ht]
    rw [if_pos hmv]
  exact ⟨hp, by simp only [readCache, hp]⟩

/-- Witness for C7 (amended): an EOCD with disk number 1 and no vendor
trailer is rejected as `Unsupported`. -/
theorem zipdir_c7_multivolume_witness :
    prepare archiveDiskOne = .error .unsupported ∧
    readCache uncompressStub crc32Stub InitMethod.default archiveDiskOne
      = ([.unsupported], none) :=
  zipdir_c7_multivolume uncompressStub crc32Stub InitMethod.default archiveDiskOne
    ⟨101010256, 1, 0, 0, 0, 0, 0, 0⟩ 0 (0, 0) rfl rfl (by decide)

/-- Counterexample for C7 as stated: this archive's EOCD has disk 1, yet
the open fails with `DataCorrupt` (from the malformed extended trailer
decoded first), not with `Unsupported`. -/
theorem zipdir_c7_multivolume_counterexample :
    (readCDREndAt archiveDiskOneBadTrailer 0).nDisk = 1 ∧
    prepare archiveDiskOneBadTrailer = .error .dataCorrupt ∧
    ZipDirError.dataCorrupt ≠ ZipDirError.unsupported :=
  ⟨rfl, rfl, by decide⟩

/-- Every branch of the `InitDataOffset` tail keeps the data offset it
was given, whatever the bounds check or validation outcome. -/
theorem initDataOffsetFinish_dataOffset (uncompress : List Nat → Nat → ZlibResult)
    (crc32fn : List Nat → Nat) (im : InitMethod) (f : List Nat) (cep : Nat)
    (log : List ZipDirError) (fe : FileEntryBase) (d : Nat) :
    (initDataOffsetFinish uncompress crc32fn im f cep log fe d).2.nFileDataOffset = some d := by
  simp only [initDataOffsetFinish]
  split_ifs <;> rfl

/-- C2 (amended): `InitDataOffset` branches on header encryption alone.
With encrypted headers the data offset is CDR-derived
(`local_header_offset + sizeof(LocalFileHeader) + cdr.filename_length`,
extra-field length not added), for any init method.  Without encryption —
including init methods `full` and `validate` — the local file header is
read and cross-validated, and on success the data offset uses the local
header's filename length plus its extra-field length.  The claim's
assertion that init method "full" alone suffices for the CDR-derived
offset is refuted by the counterexample. -/
theorem zipdir_c2_data_offset (uncompress : List Nat → Nat → ZlibResult)
    (crc32fn : List Nat → Nat) (im : InitMethod) (f : List Nat) (enc cep : Nat)
    (fe : FileEntryBase) (hdr : CDRFileHeader) (nm : List Nat) :
    (enc ≠ HEADERS_NOT_ENCRYPTED →
      (initDataOffset uncompress crc32fn im f enc cep fe hdr nm).2.nFileDataOffset =
        some (hdr.lLocalHeaderOffset + sizeofLocalFileHeader + hdr.nFileNameLength)) ∧
    (enc = HEADERS_NOT_ENCRYPTED →
      ∀ lfh, lfh = readLocalFileHeader
          (readOrZeros f hdr.lLocalHeaderOffset (sizeofLocalFileHeader + hdr.nFileNameLength)).1 →
        hdr.desc = lfh.desc → hdr.nMethod = lfh.nMethod →
        hdr.nFileNameLength = lfh.nFileNameLength →
        namesMatchNoCase
          ((readOrZeros f hdr.lLocalHeaderOffset
            (sizeofLocalFileHeader + hdr.nFileNameLength)).1.drop sizeofLocalFileHeader) nm = true →
        (initDataOffset uncompress crc32fn im f enc cep fe hdr nm).2.nFileDataOffset =
          some (hdr.lLocalHeaderOffset + sizeofLocalFileHeader + lfh.nFileNameLength +
            lfh.nExtraFieldLength)) := by
  constructor
  · intro henc
    simp only [initDataOffset, if_pos henc]
    exact initDataOffsetFinish_dataOffset _ _ _ _ _ _ _ _
  · intro henc lfh hlfh h1 h2 h3 h4
    subst hlfh
    simp only [initDataOffset, if_neg (not_not_intro henc)]
    rw [if_neg (by push_neg; exact ⟨h1, h2, h3⟩)]
    rw [if_neg (not_not_intro h4)]
    exact initDataOffsetFinish_dataOffset _ _ _ _ _ _ _ _

/-- Witness for C2 (amended): with encrypted headers the offset is
`0 + 30 + 1 = 31` ignoring the extra field; without encryption (init
method `full`) the same central-directory entry against a local header
with a 4-byte extra field yields `0 + 30 + 1 + 4 = 35`. -/
theorem zipdir_c2_data_offset_witness :
    (initDataOffset uncompressStub crc32Stub InitMethod.full [] HEADERS_ENCRYPTED_STREAMCIPHER
      100 (FileEntryBase.ofHeader hdrStoreA 0 46) hdrStoreA [97]).2.nFileDataOffset
      = some 31 ∧
    (initDataOffset uncompressStub crc32Stub InitMethod.full fileWithExtraField
      HEADERS_NOT_ENCRYPTED 100 (FileEntryBase.ofHeader hdrStoreA 0 46) hdrStoreA
      [97]).2.nFileDataOffset = some 35 := by
  constructor
  · exact (zipdir_c2_data_offset uncompressStub crc32Stub InitMethod.full []
      HEADERS_ENCRYPTED_STREAMCIPHER 100 (FileEntryBase.ofHeader hdrStoreA 0 46) hdrStoreA
      [97]).1 (by decide)
  · exact (zipdir_c2_data_offset uncompressStub crc32Stub InitMethod.full fileWithExtraField
      HEADERS_NOT_ENCRYPTED 100 (FileEntryBase.ofHeader hdrStoreA 0 46) hdrStoreA [97]).2
      rfl _ rfl (by decide) (by decide) (by decide) (by decide)

/-- Counterexample for C2 as stated: with init method `full` and no
encryption, the computed data offset is 35 — the local file header was
read and its 4-byte extra-field length added — not the claimed
CDR-only value `local_header_offset + sizeof(LocalFileHeader) +
cdr.filename_length = 31`. -/
theorem zipdir_c2_data_offset_counterexample :
    (initDataOffset uncompressStub crc32Stub InitMethod.full fileWithExtraField
      HEADERS_NOT_ENCRYPTED 100 (FileEntryBase.ofHeader hdrStoreA 0 46) hdrStoreA
      [97]).2.nFileDataOffset = some 35 ∧
    some (35 : Nat) ≠
      some (hdrStoreA.lLocalHeaderOffset + sizeofLocalFileHeader + hdrStoreA.nFileNameLength) :=
  ⟨rfl, by decide⟩

/-- C10: for a CDR entry with zero compressed size, `AddFileEntry` never
invokes `InitDataOffset` — whatever the init method, the encryption
state, or the file bytes: the result is given by the two CDR-only checks
alone, and an accepted entry is inserted with its data and EOF offsets
still uninitialised (no local file header read, no offsets computed, no
validation run). -/
theorem zipdir_c10_zero_compressed (uncompress : List Nat → Nat → ZlibResult)
    (crc32fn : List Nat → Nat) (im : InitMethod) (f : List Nat) (enc co cep : Nat)
    (nm : List Nat) (no : Nat) (hdr : CDRFileHeader) (ex : Nat)
    (hcs : hdr.desc.lSizeCompressed = 0) :
    addFileEntry uncompress crc32fn im f enc co cep nm no hdr ex =
      (if hdr.lLocalHeaderOffset > co then ([.cdrCorrupt], none)
       else if (hdr.nMethod = METHOD_STORE ∨ hdr.nMethod = METHOD_STORE_AND_STREAMCIPHER_KEYTABLE) ∧
           hdr.desc.lSizeUncompressed ≠ hdr.desc.lSizeCompressed then ([.validationFailed], none)
       else ([], some (FileEntryBase.ofHeader hdr ex no))) ∧
    (FileEntryBase.ofHeader hdr ex no).nFileDataOffset = none ∧
    (FileEntryBase.ofHeader hdr ex no).nEOFOffset = none := by
  refine ⟨?_, rfl, rfl⟩
  simp only [addFileEntry]
  split_ifs with h1 h2 h3
  · rfl
  · rfl
  · exact absurd h3.2 (by simp [hcs])
  · rfl

/-- Witness for C10: a zero-sized stored entry under the `validate` init
method and streamcipher-keytable header encryption is inserted untouched,
with no data or EOF offset. -/
theorem zipdir_c10_zero_compressed_witness :
    addFileEntry uncompressStub crc32Stub InitMethod.validate [1, 2, 3]
      HEADERS_ENCRYPTED_STREAMCIPHER_KEYTABLE 10 20 [97] 46 hdrZeroSize 0 =
      ([], some (FileEntryBase.ofHeader hdrZeroSize 0 46)) ∧
    (FileEntryBase.ofHeader hdrZeroSize 0 46).nFileDataOffset = none := by
  have h := zipdir_c10_zero_compressed uncompressStub crc32Stub InitMethod.validate [1, 2, 3]
    HEADERS_ENCRYPTED_STREAMCIPHER_KEYTABLE 10 20 [97] 46 hdrZeroSize 0 rfl
  exact ⟨by rw [h.1]; rfl, h.2.1⟩

/-! Per-entry and tree helper lemmas. -/

/-- The `InitDataOffset` tail never touches the local-header offset. -/
theorem initDataOffsetFinish_headerOffset (uncompress : List Nat → Nat → ZlibResult)
    (crc32fn : List Nat → Nat) (im : InitMethod) (f : List Nat) (cep : Nat)
    (log : List ZipDirError) (fe : FileEntryBase) (d : Nat) :
    (initDataOffsetFinish uncompress crc32fn im f cep log fe d).2.nFileHeaderOffset =
      fe.nFileHeaderOffset := by
  simp only [initDataOffsetFinish]
  split_ifs <;> rfl

/-- `InitDataOffset` never touches the local-header offset. -/
theorem initDataOffset_headerOffset (uncompress : List Nat → Nat → ZlibResult)
    (crc32fn : List Nat → Nat) (im : InitMethod) (f : List Nat) (enc cep : Nat)
    (fe : FileEntryBase) (hdr : CDRFileHeader) (nm : List Nat) :
    (initDataOffset uncompress crc32fn im f enc cep fe hdr nm).2.nFileHeaderOffset =
      fe.nFileHeaderOffset := by
  simp only [initDataOffset]
  split_ifs <;> first | rfl | apply initDataOffsetFinish_headerOffset

/-- Any entry that `AddFileEntry` hands to the tree has a local-header
offset of at most the CDR offset. -/
theorem addFileEntry_some_le (uncompress : List Nat → Nat → ZlibResult)
    (crc32fn : List Nat → Nat) (im : InitMethod) (f : List Nat) (enc co cep : Nat)
    (nm : List Nat) (no : Nat) (hdr : CDRFileHeader) (ex : Nat) (fe2 : FileEntryBase)
    (h : (addFileEntry uncompress crc32fn im f enc co cep nm no hdr ex).2 = some fe2) :
    fe2.nFileHeaderOffset ≤ co := by
  simp only [addFileEntry] at h
  split_ifs at h with h1 h2 h3 <;> simp at h
  · rw [← h, initDataOffset_headerOffset]
    simp only [FileEntryBase.ofHeader]
    omega
  · rw [← h]
    simp only [FileEntryBase.ofHeader]
    omega

/-- A silent `AddFileEntry` (empty log) always yields an entry. -/
theorem addFileEntry_silent_some (uncompress : List Nat → Nat → ZlibResult)
    (crc32fn : List Nat → Nat) (im : InitMethod) (f : List Nat) (enc co cep : Nat)
    (nm : List Nat) (no : Nat) (hdr : CDRFileHeader) (ex : Nat)
    (h : (addFileEntry uncompress crc32fn im f enc co cep nm no hdr ex).1 = []) :
    ∃ fe2, (addFileEntry uncompress crc32fn im f enc co cep nm no hdr ex).2 = some fe2 := by
  simp only [addFileEntry] at h ⊢
  split_ifs at h ⊢
  · exact ⟨_, rfl⟩
  · exact ⟨_, rfl⟩

/-- Members of an updated tree are old members or the new binding. -/
theorem treeAdd_mem (t : FileEntryTree) (k : List Nat) (v : FileEntryBase)
    (kv : List Nat × FileEntryBase) (h : kv ∈ treeAdd t k v) : kv ∈ t ∨ kv = (k, v) := by
  simp only [treeAdd] at h
  split_ifs at h with hk
  · rcases List.mem_map.mp h with ⟨kv0, hkv0, heq⟩
    by_cases hk0 : kv0.1 = k
    · right; rw [← heq]; simp [hk0]
    · left; rw [← heq]; simpa [hk0] using hkv0
  · rcases List.mem_append.mp h with h2 | h2
    · left; exact h2
    · right; simpa using h2

/-- Inserting a fresh key appends one leaf. -/
theorem treeAdd_length_fresh (t : FileEntryTree) (k : List Nat) (v : FileEntryBase)
    (hf : ∀ kv ∈ t, kv.1 ≠ k) : (treeAdd t k v).length = t.length + 1 := by
  simp only [treeAdd]
  rw [if_neg]
  · simp
  · simp only [List.any_eq_true, decide_eq_true_eq, not_exists]
    intro kv
    rintro ⟨hkv, hk⟩
    exact hf kv hkv hk

/-- The EOF-offset sweep keeps the number of leaves. -/
theorem refreshEOFOffsets_length (t : FileEntryTree) (co : Nat) :
    (refreshEOFOffsets t co).length = t.length := List.length_map _ _

/-- Every leaf of the swept tree comes from a leaf of the original tree
with the same key and the same local-header offset. -/
theorem refreshEOFOffsets_mem (t : FileEntryTree) (co : Nat) (kv : List Nat × FileEntryBase)
    (h : kv ∈ refreshEOFOffsets t co) :
    ∃ kv0 ∈ t, kv.1 = kv0.1 ∧ kv.2.nFileHeaderOffset = kv0.2.nFileHeaderOffset := by
  simp only [refreshEOFOffsets] at h
  rcases List.mem_map.mp h with ⟨kv0, hkv0, heq⟩
  exact ⟨kv0, hkv0, by rw [← heq], by rw [← heq]⟩

/-! One-step unfolding equations for the CDR walk, and its inductive
invariants. -/

section BuildLoopLemmas

variable (uncompress : List Nat → Nat → ZlibResult) (crc32fn : List Nat → Nat)
  (im : InitMethod) (f : List Nat) (e co cep : Nat) (b : List Nat) (size : Nat)

/-- Walk exit: no room for another record header. -/
theorem buildLoop_step_exit (pos : Nat) (t : FileEntryTree) (log : List ZipDirError)
    (hle : ¬ pos + sizeofCDRFileHeader ≤ size) :
    buildLoop uncompress crc32fn im f e co cep b size pos t log = (log, some t) := by
  rw [buildLoop, dif_neg hle]

/-- Walk abort on an unsupported needed-version. -/
theorem buildLoop_step_version (pos : Nat) (t : FileEntryTree) (log : List ZipDirError)
    (hle : pos + sizeofCDRFileHeader ≤ size)
    (hver : (readCDRFileHeaderAt b pos).nVersionNeeded % 256 > 20) :
    buildLoop uncompress crc32fn im f e co cep b size pos t log =
      (log ++ [.unsupported], none) := by
  rw [buildLoop, dif_pos hle]
  simp only []
  rw [if_pos hver]

/-- Walk abort on a record overrunning the buffer. -/
theorem buildLoop_step_overrun (pos : Nat) (t : FileEntryTree) (log : List ZipDirError)
    (hle : pos + sizeofCDRFileHeader ≤ size)
    (hver : ¬ (readCDRFileHeaderAt b pos).nVersionNeeded % 256 > 20)
    (hovr : pos + sizeofCDRFileHeader + (readCDRFileHeaderAt b pos).nFileNameLength +
      (readCDRFileHeaderAt b pos).nExtraFieldLength +
      (readCDRFileHeaderAt b pos).nFileCommentLength > size) :
    buildLoop uncompress crc32fn im f e co cep b size pos t log =
      (log ++ [.cdrCorrupt], none) := by
  rw [buildLoop, dif_pos hle]
  simp only []
  rw [if_neg hver, if_pos hovr]

/-- Walk step over a directory entry: nothing is added. -/
theorem buildLoop_step_dir (pos : Nat) (t : FileEntryTree) (log : List ZipDirError)
    (hle : pos + sizeofCDRFileHeader ≤ size)
    (hver : ¬ (readCDRFileHeaderAt b pos).nVersionNeeded % 256 > 20)
    (hovr : ¬ pos + sizeofCDRFileHeader + (readCDRFileHeaderAt b pos).nFileNameLength +
      (readCDRFileHeaderAt b pos).nExtraFieldLength +
      (readCDRFileHeaderAt b pos).nFileCommentLength > size)
    (hdir : isDirectoryName (rawNameAt b pos (readCDRFileHeaderAt b pos).nFileNameLength) = true) :
    buildLoop uncompress crc32fn im f e co cep b size pos t log =
      buildLoop uncompress crc32fn im f e co cep b size
        (pos + sizeofCDRFileHeader + (readCDRFileHeaderAt b pos).nFileNameLength +
          (readCDRFileHeaderAt b pos).nExtraFieldLength +
          (readCDRFileHeaderAt b pos).nFileCommentLength) t log := by
  rw [buildLoop, dif_pos hle]
  simp only []
  rw [if_neg hver, if_neg hovr, if_pos hdir]

/-- Walk step over a file entry: `AddFileEntry` runs, its log is
appended, and its entry (when produced) is inserted. -/
theorem buildLoop_step_file (pos : Nat) (t : FileEntryTree) (log : List ZipDirError)
    (hdr : CDRFileHeader) (ex : Nat) (nm : List Nat) (r : List ZipDirError × Option FileEntryBase)
    (hhdr : readCDRFileHeaderAt b pos = hdr)
    (hle : pos + sizeofCDRFileHeader ≤ size)
    (hver : ¬ hdr.nVersionNeeded % 256 > 20)
    (hovr : ¬ pos + sizeofCDRFileHeader + hdr.nFileNameLength + hdr.nExtraFieldLength +
      hdr.nFileCommentLength > size)
    (hdir : isDirectoryName (rawNameAt b pos hdr.nFileNameLength) = false)
    (hnm : nm = normalizeName (rawNameAt b pos hdr.nFileNameLength))
    (hex : ex = parseExtras b (pos + sizeofCDRFileHeader + hdr.nFileNameLength +
      hdr.nExtraFieldLength) (pos + sizeofCDRFileHeader + hdr.nFileNameLength) 0)
    (hr : r = addFileEntry uncompress crc32fn im f e co cep nm (pos + sizeofCDRFileHeader) hdr ex) :
    buildLoop uncompress crc32fn im f e co cep b size pos t log =
      buildLoop uncompress crc32fn im f e co cep b size
        (pos + sizeofCDRFileHeader + hdr.nFileNameLength + hdr.nExtraFieldLength +
          hdr.nFileCommentLength)
        (match r.2 with
          | some fe => treeAdd t nm fe
          | none => t)
        (log ++ r.1) := by
  subst hhdr
  subst hnm
  subst hex
  subst hr
  rw [buildLoop, dif_pos hle]
  simp only []
  rw [if_neg hver, if_neg hovr, if_neg (by simp [hdir])]

/-- The walk only ever appends to its log. -/
theorem buildLoop_log_mono :
    ∀ pos t log, ∃ l2,
      (buildLoop uncompress crc32fn im f e co cep b size pos t log).1 = log ++ l2 := by
  intro pos t log
  induction pos, t, log using buildLoop.induct uncompress crc32fn im f e co cep b size with
  | case1 pos t log hle hdr hver =>
    exact ⟨[.unsupported],
      by rw [buildLoop_step_version uncompress crc32fn im f e co cep b size pos t log hle hver]⟩
  | case2 pos t log hle hdr hver hovr =>
    exact ⟨[.cdrCorrupt],
      by rw [buildLoop_step_overrun uncompress crc32fn im f e co cep b size pos t log hle hver
        hovr]⟩
  | case3 pos t log hle hdr hver hovr raw hdir ih =>
    rw [buildLoop_step_dir uncompress crc32fn im f e co cep b size pos t log hle hver hovr hdir]
    exact ih
  | case4 pos t log hle hdr hver hovr ntfs raw hdir nm r t2 ih =>
    rw [buildLoop_step_file uncompress crc32fn im f e co cep b size pos t log _ _ _ _ rfl hle
      hver hovr (by simpa using hdir) rfl rfl rfl]
    obtain ⟨l2, h⟩ := ih
    exact ⟨_, h.trans (List.append_assoc _ _ _)⟩
  | case5 pos t log hle =>
    refine ⟨[], ?_⟩
    rw [buildLoop_step_exit uncompress crc32fn im f e co cep b size pos t log hle]
    simp

/-- When the walk aborts, the last log entry is the walk's own
structural error: an unsupported version or a corrupt record. -/
theorem buildLoop_none_last :
    ∀ pos t log, (buildLoop uncompress crc32fn im f e co cep b size pos t log).2 = none →
      ∃ l2 e2, (buildLoop uncompress crc32fn im f e co cep b size pos t log).1 = l2 ++ [e2] ∧
        (e2 = ZipDirError.unsupported ∨ e2 = ZipDirError.cdrCorrupt) := by
  intro pos t log
  induction pos, t, log using buildLoop.induct uncompress crc32fn im f e co cep b size with
  | case1 pos t log hle hdr hver =>
    intro _
    rw [buildLoop_step_version uncompress crc32fn im f e co cep b size pos t log hle hver]
    exact ⟨log, .unsupported, rfl, Or.inl rfl⟩
  | case2 pos t log hle hdr hver hovr =>
    intro _
    rw [buildLoop_step_overrun uncompress crc32fn im f e co cep b size pos t log hle hver hovr]
    exact ⟨log, .cdrCorrupt, rfl, Or.inr rfl⟩
  | case3 pos t log hle hdr hver hovr raw hdir ih =>
    rw [buildLoop_step_dir uncompress crc32fn im f e co cep b size pos t log hle hver hovr hdir]
    exact ih
  | case4 pos t log hle hdr hver hovr ntfs raw hdir nm r t2 ih =>
    rw [buildLoop_step_file uncompress crc32fn im f e co cep b size pos t log _ _ _ _ rfl hle
      hver hovr (by simpa using hdir) rfl rfl rfl]
    exact ih
  | case5 pos t log hle =>
    intro hnone
    rw [buildLoop_step_exit uncompress crc32fn im f e co cep b size pos t log hle] at hnone
    simp at hnone

/-- Any invariant of the entries that `AddFileEntry` produces (here: the
local-header offset bound) carries from the initial tree to the walk's
final tree. -/
theorem buildLoop_mem_headerOffset :
    ∀ pos t log lg tree,
      (∀ kv ∈ t, kv.2.nFileHeaderOffset ≤ co) →
      buildLoop uncompress crc32fn im f e co cep b size pos t log = (lg, some tree) →
      ∀ kv ∈ tree, kv.2.nFileHeaderOffset ≤ co := by
  intro pos t log
  induction pos, t, log using buildLoop.induct uncompress crc32fn im f e co cep b size with
  | case1 pos t log hle hdr hver =>
    intro lg tree _ hb
    rw [buildLoop_step_version uncompress crc32fn im f e co cep b size pos t log hle hver] at hb
    simp at hb
  | case2 pos t log hle hdr hver hovr =>
    intro lg tree _ hb
    rw [buildLoop_step_overrun uncompress crc32fn im f e co cep b size pos t log hle hver
      hovr] at hb
    simp at hb
  | case3 pos t log hle hdr hver hovr raw hdir ih =>
    intro lg tree ht hb
    rw [buildLoop_step_dir uncompress crc32fn im f e co cep b size pos t log hle hver hovr
      hdir] at hb
    exact ih lg tree ht hb
  | case4 pos t log hle hdr hver hovr ntfs raw hdir nm r t2 ih =>
    intro lg tree ht hb
    rw [buildLoop_step_file uncompress crc32fn im f e co cep b size pos t log _ _ _ _ rfl hle
      hver hovr (by simpa using hdir) rfl rfl rfl] at hb
    refine ih lg tree ?_ hb
    intro kv hkv
    have hkv2 : kv ∈ (match (addFileEntry uncompress crc32fn im f e co cep
        (normalizeName (rawNameAt b pos (readCDRFileHeaderAt b pos).nFileNameLength))
        (pos + sizeofCDRFileHeader) (readCDRFileHeaderAt b pos)
        (parseExtras b (pos + sizeofCDRFileHeader +
            (readCDRFileHeaderAt b pos).nFileNameLength +
            (readCDRFileHeaderAt b pos).nExtraFieldLength)
          (pos + sizeofCDRFileHeader + (readCDRFileHeaderAt b pos).nFileNameLength) 0)).2 with
        | some fe => treeAdd t (normalizeName
            (rawNameAt b pos (readCDRFileHeaderAt b pos).nFileNameLength)) fe
        | none => t) := hkv
    clear hkv
    cases hmatch : (addFileEntry uncompress crc32fn im f e co cep
        (normalizeName (rawNameAt b pos (readCDRFileHeaderAt b pos).nFileNameLength))
        (pos + sizeofCDRFileHeader) (readCDRFileHeaderAt b pos)
        (parseExtras b (pos + sizeofCDRFileHeader +
            (readCDRFileHeaderAt b pos).nFileNameLength +
            (readCDRFileHeaderAt b pos).nExtraFieldLength)
          (pos + sizeofCDRFileHeader + (readCDRFileHeaderAt b pos).nFileNameLength) 0)).2 with
    | none =>
      rw [hmatch] at hkv2
      exact ht kv hkv2
    | some fe2 =>
      rw [hmatch] at hkv2
      rcases treeAdd_mem t _ _ kv hkv2 with h2 | h2
      · exact ht kv h2
      · rw [h2]
        exact addFileEntry_some_le uncompress crc32fn im f e co cep _ _ _ _ _ hmatch
  | case5 pos t log hle =>
    intro lg tree ht hb
    rw [buildLoop_step_exit uncompress crc32fn im f e co cep b size pos t log hle] at hb
    simp only [Prod.mk.injEq, Option.some.injEq] at hb
    rw [← hb.2]
    exact ht

/-- Full-walk exit: no room for another record header. -/
theorem buildLoopP_step_exit (pos : Nat) (t : FileEntryTree) (log : List ZipDirError)
    (hle : ¬ pos + sizeofCDRFileHeader ≤ size) :
    buildLoopP uncompress crc32fn im f e co cep b size pos t log = (log, t, true) := by
  rw [buildLoopP, dif_neg hle]

/-- Full-walk abort on an unsupported needed-version: the tree built so
far is kept. -/
theorem buildLoopP_step_version (pos : Nat) (t : FileEntryTree) (log : List ZipDirError)
    (hle : pos + sizeofCDRFileHeader ≤ size)
    (hver : (readCDRFileHeaderAt b pos).nVersionNeeded % 256 > 20) :
    buildLoopP uncompress crc32fn im f e co cep b size pos t log =
      (log ++ [.unsupported], t, false) := by
  rw [buildLoopP, dif_pos hle]
  simp only []
  rw [if_pos hver]

/-- Full-walk abort on a record overrunning the buffer: the tree built
so far is kept. -/
theorem buildLoopP_step_overrun (pos : Nat) (t : FileEntryTree) (log : List ZipDirError)
    (hle : pos + sizeofCDRFileHeader ≤ size)
    (hver : ¬ (readCDRFileHeaderAt b pos).nVersionNeeded % 256 > 20)
    (hovr : pos + sizeofCDRFileHeader + (readCDRFileHeaderAt b pos).nFileNameLength +
      (readCDRFileHeaderAt b pos).nExtraFieldLength +
      (readCDRFileHeaderAt b pos).nFileCommentLength > size) :
    buildLoopP uncompress crc32fn im f e co cep b size pos t log =
      (log ++ [.cdrCorrupt], t, false) := by
  rw [buildLoopP, dif_pos hle]
  simp only []
  rw [if_neg hver, if_pos hovr]

/-- Full-walk step over a directory entry: nothing is added. -/
theorem buildLoopP_step_dir (pos : Nat) (t : FileEntryTree) (log : List ZipDirError)
    (hle : pos + sizeofCDRFileHeader ≤ size)
    (hver : ¬ (readCDRFileHeaderAt b pos).nVersionNeeded % 256 > 20)
    (hovr : ¬ pos + sizeofCDRFileHeader + (readCDRFileHeaderAt b pos).nFileNameLength +
      (readCDRFileHeaderAt b pos).nExtraFieldLength +
      (readCDRFileHeaderAt b pos).nFileCommentLength > size)
    (hdir : isDirectoryName (rawNameAt b pos (readCDRFileHeaderAt b pos).nFileNameLength) = true) :
    buildLoopP uncompress crc32fn im f e co cep b size pos t log =
      buildLoopP uncompress crc32fn im f e co cep b size
        (pos + sizeofCDRFileHeader + (readCDRFileHeaderAt b pos).nFileNameLength +
          (readCDRFileHeaderAt b pos).nExtraFieldLength +
          (readCDRFileHeaderAt b pos).nFileCommentLength) t log := by
  rw [buildLoopP, dif_pos hle]
  simp only []
  rw [if_neg hver, if_neg hovr, if_pos hdir]

/-- Full-walk step over a file entry: `AddFileEntry` runs, its log is
appended, and its entry (when produced) is inserted. -/
theorem buildLoopP_step_file (pos : Nat) (t : FileEntryTree) (log : List ZipDirError)
    (hdr : CDRFileHeader) (ex : Nat) (nm : List Nat) (r : List ZipDirError × Option FileEntryBase)
    (hhdr : readCDRFileHeaderAt b pos = hdr)
    (hle : pos + sizeofCDRFileHeader ≤ size)
    (hver : ¬ hdr.nVersionNeeded % 256 > 20)
    (hovr : ¬ pos + sizeofCDRFileHeader + hdr.nFileNameLength + hdr.nExtraFieldLength +
      hdr.nFileCommentLength > size)
    (hdir : isDirectoryName (rawNameAt b pos hdr.nFileNameLength) = false)
    (hnm : nm = normalizeName (rawNameAt b pos hdr.nFileNameLength))
    (hex : ex = parseExtras b (pos + sizeofCDRFileHeader + hdr.nFileNameLength +
      hdr.nExtraFieldLength) (pos + sizeofCDRFileHeader + hdr.nFileNameLength) 0)
    (hr : r = addFileEntry uncompress crc32fn im f e co cep nm (pos + sizeofCDRFileHeader) hdr ex) :
    buildLoopP uncompress crc32fn im f e co cep b size pos t log =
      buildLoopP uncompress crc32fn im f e co cep b size
        (pos + sizeofCDRFileHeader + hdr.nFileNameLength + hdr.nExtraFieldLength +
          hdr.nFileCommentLength)
        (match r.2 with
          | some fe => treeAdd t nm fe
          | none => t)
        (log ++ r.1) := by
  subst hhdr
  subst hnm
  subst hex
  subst hr
  rw [buildLoopP, dif_pos hle]
  simp only []
  rw [if_neg hver, if_neg hovr, if_neg (by simp [hdir])]

/-- The two embeddings of the source loop agree: `buildLoop` is the
full walk projected to its log and boolean result. -/
theorem buildLoop_eq_buildLoopP :
    ∀ pos t log,
      buildLoop uncompress crc32fn im f e co cep b size pos t log =
        ((buildLoopP uncompress crc32fn im f e co cep b size pos t log).1,
          if (buildLoopP uncompress crc32fn im f e co cep b size pos t log).2.2 then
            some (buildLoopP uncompress crc32fn im f e co cep b size pos t log).2.1
          else none) := by
  intro pos t log
  induction pos, t, log using buildLoopP.induct uncompress crc32fn im f e co cep b size with
  | case1 pos t log hle hdr hver =>
    rw [buildLoop_step_version uncompress crc32fn im f e co cep b size pos t log hle hver,
      buildLoopP_step_version uncompress crc32fn im f e co cep b size pos t log hle hver]
    rfl
  | case2 pos t log hle hdr hver hovr =>
    rw [buildLoop_step_overrun uncompress crc32fn im f e co cep b size pos t log hle hver hovr,
      buildLoopP_step_overrun uncompress crc32fn im f e co cep b size pos t log hle hver hovr]
    rfl
  | case3 pos t log hle hdr hver hovr raw hdir ih =>
    rw [buildLoop_step_dir uncompress crc32fn im f e co cep b size pos t log hle hver hovr hdir,
      buildLoopP_step_dir uncompress crc32fn im f e co cep b size pos t log hle hver hovr hdir]
    exact ih
  | case4 pos t log hle hdr hver hovr ntfs raw hdir nm r t2 ih =>
    rw [buildLoop_step_file uncompress crc32fn im f e co cep b size pos t log _ _ _ _ rfl hle
      hver hovr (by simpa using hdir) rfl rfl rfl,
      buildLoopP_step_file uncompress crc32fn im f e co cep b size pos t log _ _ _ _ rfl hle
      hver hovr (by simpa using hdir) rfl rfl rfl]
    exact ih
  | case5 pos t log hle =>
    rw [buildLoop_step_exit uncompress crc32fn im f e co cep b size pos t log hle,
      buildLoopP_step_exit uncompress crc32fn im f e co cep b size pos t log hle]
    rfl

/-- The local-header offset bound carries to the full walk's tree,
whether the walk succeeds or aborts mid-way. -/
theorem buildLoopP_mem_headerOffset :
    ∀ pos t log,
      (∀ kv ∈ t, kv.2.nFileHeaderOffset ≤ co) →
      ∀ kv ∈ (buildLoopP uncompress crc32fn im f e co cep b size pos t log).2.1,
        kv.2.nFileHeaderOffset ≤ co := by
  intro pos t log
  induction pos, t, log using buildLoopP.induct uncompress crc32fn im f e co cep b size with
  | case1 pos t log hle hdr hver =>
    intro ht
    rw [buildLoopP_step_version uncompress crc32fn im f e co cep b size pos t log hle hver]
    exact ht
  | case2 pos t log hle hdr hver hovr =>
    intro ht
    rw [buildLoopP_step_overrun uncompress crc32fn im f e co cep b size pos t log hle hver hovr]
    exact ht
  | case3 pos t log hle hdr hver hovr raw hdir ih =>
    intro ht
    rw [buildLoopP_step_dir uncompress crc32fn im f e co cep b size pos t log hle hver hovr
      hdir]
    exact ih ht
  | case4 pos t log hle hdr hver hovr ntfs raw hdir nm r t2 ih =>
    intro ht
    rw [buildLoopP_step_file uncompress crc32fn im f e co cep b size pos t log _ _ _ _ rfl hle
      hver hovr (by simpa using hdir) rfl rfl rfl]
    refine ih ?_
    intro kv hkv
    have hkv2 : kv ∈ (match (addFileEntry uncompress crc32fn im f e co cep
        (normalizeName (rawNameAt b pos (readCDRFileHeaderAt b pos).nFileNameLength))
        (pos + sizeofCDRFileHeader) (readCDRFileHeaderAt b pos)
        (parseExtras b (pos + sizeofCDRFileHeader +
            (readCDRFileHeaderAt b pos).nFileNameLength +
            (readCDRFileHeaderAt b pos).nExtraFieldLength)
          (pos + sizeofCDRFileHeader + (readCDRFileHeaderAt b pos).nFileNameLength) 0)).2 with
        | some fe => treeAdd t (normalizeName
            (rawNameAt b pos (readCDRFileHeaderAt b pos).nFileNameLength)) fe
        | none => t) := hkv
    clear hkv
    cases hmatch : (addFileEntry uncompress crc32fn im f e co cep
        (normalizeName (rawNameAt b pos (readCDRFileHeaderAt b pos).nFileNameLength))
        (pos + sizeofCDRFileHeader) (readCDRFileHeaderAt b pos)
        (parseExtras b (pos + sizeofCDRFileHeader +
            (readCDRFileHeaderAt b pos).nFileNameLength +
            (readCDRFileHeaderAt b pos).nExtraFieldLength)
          (pos + sizeofCDRFileHeader + (readCDRFileHeaderAt b pos).nFileNameLength) 0)).2 with
    | none =>
      rw [hmatch] at hkv2
      exact ht kv hkv2
    | some fe2 =>
      rw [hmatch] at hkv2
      rcases treeAdd_mem t _ _ kv hkv2 with h2 | h2
      · exact ht kv h2
      · rw [h2]
        exact addFileEntry_some_le uncompress crc32fn im f e co cep _ _ _ _ _ hmatch
  | case5 pos t log hle =>
    intro ht
    rw [buildLoopP_step_exit uncompress crc32fn im f e co cep b size pos t log hle]
    exact ht

end BuildLoopLemmas

/-! One-step unfolding equations for the derived record stream, and the
leaf-counting invariant of the walk. -/

/-- Record-stream exit: no room for another record header. -/
theorem cdrRecords_step_exit (b : List Nat) (size pos : Nat)
    (hle : ¬ pos + sizeofCDRFileHeader ≤ size) : cdrRecords b size pos = some [] := by
  rw [cdrRecords, dif_neg hle]

/-- Record-stream abort on an unsupported needed-version. -/
theorem cdrRecords_step_version (b : List Nat) (size pos : Nat)
    (hle : pos + sizeofCDRFileHeader ≤ size)
    (hver : (readCDRFileHeaderAt b pos).nVersionNeeded % 256 > 20) :
    cdrRecords b size pos = none := by
  rw [cdrRecords, dif_pos hle]
  simp only []
  rw [if_pos hver]

/-- Record-stream abort on a record overrunning the buffer. -/
theorem cdrRecords_step_overrun (b : List Nat) (size pos : Nat)
    (hle : pos + sizeofCDRFileHeader ≤ size)
    (hver : ¬ (readCDRFileHeaderAt b pos).nVersionNeeded % 256 > 20)
    (hovr : pos + sizeofCDRFileHeader + (readCDRFileHeaderAt b pos).nFileNameLength +
      (readCDRFileHeaderAt b pos).nExtraFieldLength +
      (readCDRFileHeaderAt b pos).nFileCommentLength > size) :
    cdrRecords b size pos = none := by
  rw [cdrRecords, dif_pos hle]
  simp only []
  rw [if_neg hver, if_pos hovr]

/-- Record-stream step over a well-formed record. -/
theorem cdrRecords_step_cons (b : List Nat) (size pos : Nat)
    (hle : pos + sizeofCDRFileHeader ≤ size)
    (hver : ¬ (readCDRFileHeaderAt b pos).nVersionNeeded % 256 > 20)
    (hovr : ¬ pos + sizeofCDRFileHeader + (readCDRFileHeaderAt b pos).nFileNameLength +
      (readCDRFileHeaderAt b pos).nExtraFieldLength +
      (readCDRFileHeaderAt b pos).nFileCommentLength > size) :
    cdrRecords b size pos =
      Option.map
        (fun rest => ⟨readCDRFileHeaderAt b pos,
          normalizeName (rawNameAt b pos (readCDRFileHeaderAt b pos).nFileNameLength),
          isDirectoryName (rawNameAt b pos (readCDRFileHeaderAt b pos).nFileNameLength),
          pos + sizeofCDRFileHeader⟩ :: rest)
        (cdrRecords b size (pos + sizeofCDRFileHeader +
          (readCDRFileHeaderAt b pos).nFileNameLength +
          (readCDRFileHeaderAt b pos).nExtraFieldLength +
          (readCDRFileHeaderAt b pos).nFileCommentLength)) := by
  rw [cdrRecords, dif_pos hle]
  simp only []
  rw [if_neg hver, if_neg hovr]
  rcases hrec : cdrRecords b size (pos + sizeofCDRFileHeader +
      (readCDRFileHeaderAt b pos).nFileNameLength +
      (readCDRFileHeaderAt b pos).nExtraFieldLength +
      (readCDRFileHeaderAt b pos).nFileCommentLength) with _ | rest <;> rfl

/-- Inserting a fresh key appends it to the key list. -/
theorem treeAdd_keys_fresh (t : FileEntryTree) (k : List Nat) (v : FileEntryBase)
    (hf : k ∉ t.map Prod.fst) : (treeAdd t k v).map Prod.fst = t.map Prod.fst ++ [k] := by
  simp only [treeAdd]
  rw [if_neg]
  · simp
  · intro h2
    rcases List.any_eq_true.mp h2 with ⟨kv, hkv, hk⟩
    exact hf (List.mem_map.mpr ⟨kv, hkv, by simpa using hk⟩)

/-- Leaf count of the walk: when every non-directory record of the
stream is accepted by `AddFileEntry`, their names do not collide with the
initial tree, and the names are pairwise distinct, the walk adds exactly
one leaf per non-directory record. -/
theorem buildLoop_count (uncompress : List Nat → Nat → ZlibResult) (crc32fn : List Nat → Nat)
    (im : InitMethod) (f : List Nat) (e co cep : Nat) (b : List Nat) (size : Nat) :
    ∀ rs pos t log lg tree,
      cdrRecords b size pos = some rs →
      (∀ r ∈ rs, r.isDir = false →
        recordAccepted uncompress crc32fn im f e co cep b r = true) →
      (∀ r ∈ rs, r.isDir = false → r.normName ∉ t.map Prod.fst) →
      ((rs.filter fun r => !r.isDir).map fun r => r.normName).Nodup →
      buildLoop uncompress crc32fn im f e co cep b size pos t log = (lg, some tree) →
      tree.length = t.length + (rs.filter fun r => !r.isDir).length := by
  intro rs
  induction rs with
  | nil =>
    intro pos t log lg tree hrs hacc hfresh hnd hb
    by_cases hle : pos + sizeofCDRFileHeader ≤ size
    · by_cases hver : (readCDRFileHeaderAt b pos).nVersionNeeded % 256 > 20
      · rw [cdrRecords_step_version b size pos hle hver] at hrs
        exact Option.noConfusion hrs
      · by_cases hovr : pos + sizeofCDRFileHeader + (readCDRFileHeaderAt b pos).nFileNameLength +
            (readCDRFileHeaderAt b pos).nExtraFieldLength +
            (readCDRFileHeaderAt b pos).nFileCommentLength > size
        · rw [cdrRecords_step_overrun b size pos hle hver hovr] at hrs
          exact Option.noConfusion hrs
        · rw [cdrRecords_step_cons b size pos hle hver hovr] at hrs
          rcases hrec : cdrRecords b size (pos + sizeofCDRFileHeader +
              (readCDRFileHeaderAt b pos).nFileNameLength +
              (readCDRFileHeaderAt b pos).nExtraFieldLength +
              (readCDRFileHeaderAt b pos).nFileCommentLength) with _ | rest
          · rw [hrec] at hrs
            exact Option.noConfusion hrs
          · rw [hrec] at hrs
            simp at hrs
    · rw [buildLoop_step_exit uncompress crc32fn im f e co cep b size pos t log hle] at hb
      simp only [Prod.mk.injEq, Option.some.injEq] at hb
      rw [← hb.2]
      simp
  | cons v rest ih =>
    intro pos t log lg tree hrs hacc hfresh hnd hb
    by_cases hle : pos + sizeofCDRFileHeader ≤ size
    · by_cases hver : (readCDRFileHeaderAt b pos).nVersionNeeded % 256 > 20
      · rw [cdrRecords_step_version b size pos hle hver] at hrs
        exact Option.noConfusion hrs
      · by_cases hovr : pos + sizeofCDRFileHeader + (readCDRFileHeaderAt b pos).nFileNameLength +
            (readCDRFileHeaderAt b pos).nExtraFieldLength +
            (readCDRFileHeaderAt b pos).nFileCommentLength > size
        · rw [cdrRecords_step_overrun b size pos hle hver hovr] at hrs
          exact Option.noConfusion hrs
        · rw [cdrRecords_step_cons b size pos hle hver hovr] at hrs
          rcases hrec : cdrRecords b size (pos + sizeofCDRFileHeader +
              (readCDRFileHeaderAt b pos).nFileNameLength +
              (readCDRFileHeaderAt b pos).nExtraFieldLength +
              (readCDRFileHeaderAt b pos).nFileCommentLength) with _ | rest2
          · rw [hrec] at hrs
            exact Option.noConfusion hrs
          · rw [hrec] at hrs
            simp only [Option.map_some', Option.some.injEq, List.cons.injEq] at hrs
            obtain ⟨hv, hrest⟩ := hrs
            subst hrest
            by_cases hdir : isDirectoryName
                (rawNameAt b pos (readCDRFileHeaderAt b pos).nFileNameLength) = true
            · rw [buildLoop_step_dir uncompress crc32fn im f e co cep b size pos t log hle hver
                hovr hdir] at hb
              have hvdir : v.isDir = true := by rw [← hv]; exact hdir
              have hfilterC : ((v :: rest2).filter fun r => !r.isDir) =
                  rest2.filter fun r => !r.isDir := by
                simp [List.filter_cons, hvdir]
              rw [hfilterC] at hnd ⊢
              exact ih _ t log lg tree hrec
                (fun r hr => hacc r (List.mem_cons_of_mem v hr))
                (fun r hr => hfresh r (List.mem_cons_of_mem v hr)) hnd hb
            · have hdirF : isDirectoryName
                  (rawNameAt b pos (readCDRFileHeaderAt b pos).nFileNameLength) = false := by
                simpa using hdir
              rw [buildLoop_step_file uncompress crc32fn im f e co cep b size pos t log _ _ _ _
                rfl hle hver hovr hdirF rfl rfl rfl] at hb
              have hvdir : v.isDir = false := by rw [← hv]; exact hdirF
              have hvnm : v.normName = normalizeName
                  (rawNameAt b pos (readCDRFileHeaderAt b pos).nFileNameLength) := by
                rw [← hv]
              have hsome := hacc v (List.mem_cons_self v rest2) hvdir
              have hvhdr : v.hdr = readCDRFileHeaderAt b pos := by rw [← hv]
              have hvoff : v.nameOffset = pos + sizeofCDRFileHeader := by rw [← hv]
              simp only [recordAccepted, recordExtras, hvnm, hvhdr, hvoff] at hsome
              obtain ⟨fe2, hfe2⟩ := Option.isSome_iff_exists.mp hsome
              have hfreshv : v.normName ∉ t.map Prod.fst :=
                hfresh v (List.mem_cons_self v rest2) hvdir
              have hfilterC : ((v :: rest2).filter fun r => !r.isDir) =
                  v :: rest2.filter fun r => !r.isDir := by
                simp [List.filter_cons, hvdir]
              rw [hfilterC] at hnd
              simp only [List.map_cons, List.nodup_cons] at hnd
              obtain ⟨hnd2, hnd3⟩ := hnd
              have hbt : buildLoop uncompress crc32fn im f e co cep b size
                  (pos + sizeofCDRFileHeader + (readCDRFileHeaderAt b pos).nFileNameLength +
                    (readCDRFileHeaderAt b pos).nExtraFieldLength +
                    (readCDRFileHeaderAt b pos).nFileCommentLength)
                  (treeAdd t v.normName fe2)
                  (log ++ (addFileEntry uncompress crc32fn im f e co cep
                    (normalizeName (rawNameAt b pos (readCDRFileHeaderAt b pos).nFileNameLength))
                    (pos + sizeofCDRFileHeader) (readCDRFileHeaderAt b pos)
                    (parseExtras b (pos + sizeofCDRFileHeader +
                        (readCDRFileHeaderAt b pos).nFileNameLength +
                        (readCDRFileHeaderAt b pos).nExtraFieldLength)
                      (pos + sizeofCDRFileHeader +
                        (readCDRFileHeaderAt b pos).nFileNameLength) 0)).1) =
                  (lg, some tree) := by
                rw [hvnm]
                rw [hfe2] at hb
                exact hb
              have hacc3 : ∀ r ∈ rest2, r.isDir = false →
                  recordAccepted uncompress crc32fn im f e co cep b r = true :=
                fun r hr => hacc r (List.mem_cons_of_mem v hr)
              have hfresh3 : ∀ r ∈ rest2, r.isDir = false →
                  r.normName ∉ (treeAdd t v.normName fe2).map Prod.fst := by
                intro r hr hrd
                rw [treeAdd_keys_fresh t v.normName fe2 hfreshv]
                simp only [List.mem_append, List.mem_singleton]
                push_neg
                refine ⟨hfresh r (List.mem_cons_of_mem v hr) hrd, ?_⟩
                intro hEq
                exact hnd2 (hEq ▸ List.mem_map.mpr
                  ⟨r, List.mem_filter.mpr ⟨hr, by simp [hrd]⟩, rfl⟩)
              have hlen := ih _ (treeAdd t v.normName fe2) _ lg tree hrec hacc3 hfresh3 hnd3 hbt
              have hta : (treeAdd t v.normName fe2).length = t.length + 1 := by
                have h4 := congrArg List.length (treeAdd_keys_fresh t v.normName fe2 hfreshv)
                simpa using h4
              rw [hfilterC]
              simp only [List.length_cons]
              omega
    · rw [cdrRecords_step_exit b size pos hle] at hrs
      simp at hrs

/-! Error-kind lemmas: the aborting stages only produce structural error
tags, never the per-entry validation tags. -/

/-- The backwards scan fails only with `NoCdr` or `DataCorrupt`. -/
theorem scanFrom_error_kind (f : List Nat) (low : Nat) :
    ∀ p e2, scanFrom f low p = .error e2 → isPerEntryOnlyError e2 = false := by
  intro p
  induction p with
  | zero =>
    intro e2 h
    simp only [scanFrom] at h
    split_ifs at h <;>
      first
        | (simp only [Except.error.injEq] at h; subst h; rfl)
        | simp at h
  | succ p ih =>
    intro e2 h
    simp only [scanFrom] at h
    split_ifs at h <;>
      first
        | (simp only [Except.error.injEq] at h; subst h; rfl)
        | exact ih e2 h
        | simp at h

/-- `FindCDREnd` fails only with a size-gate or scan error, none of which
is a per-entry validation tag. -/
theorem findCDREnd_error_kind (f : List Nat) (e2 : ZipDirError)
    (h : findCDREnd f = .error e2) : isPerEntryOnlyError e2 = false := by
  simp only [findCDREnd] at h
  split_ifs at h
  · simp only [Except.error.injEq] at h
    subst h
    rfl
  · simp only [Except.error.injEq] at h
    subst h
    rfl
  · exact scanFrom_error_kind f _ _ e2 h

/-- A successful `FindCDREnd` returns a position at least a `CDREnd`
short of the file's end. -/
theorem findCDREnd_ok_pos (f : List Nat) (c : CDREnd) (pos : Nat)
    (h : findCDREnd f = .ok (c, pos)) : pos + sizeofCDREnd ≤ f.length := by
  simp only [findCDREnd] at h
  split_ifs at h with h1 h2 <;>
    first
      | simp at h
      | (have h3 := scanFrom_ok_le f (scanLow f.length) (f.length - sizeofCDREnd) c pos h
         simp only [sizeofCDREnd] at *
         omega)

/-- The trailer decoder fails only with `DataCorrupt`. -/
theorem decodeTrailers_error_kind (f : List Nat) (c : CDREnd) (e0 : Nat) (e2 : ZipDirError)
    (h : decodeTrailers f c e0 = .error e2) : e2 = .dataCorrupt := by
  simp only [decodeTrailers] at h
  split_ifs at h <;> simp_all
  all_goals (split_ifs at h <;> simp_all)

/-- `Prepare` fails only with a structural error tag. -/
theorem prepare_error_kind (f : List Nat) (e2 : ZipDirError)
    (h : prepare f = .error e2) : isPerEntryOnlyError e2 = false := by
  cases hf : findCDREnd f with
  | error e3 =>
    simp only [prepare, hf] at h
    simp only [Except.error.injEq] at h
    subst h
    exact findCDREnd_error_kind f e3 hf
  | ok cp =>
    obtain ⟨c0, pos⟩ := cp
    simp only [prepare, hf] at h
    cases hd : (if (maskDisk c0).nCommentLength ≥ sizeofExtendedTrailer then
        decodeTrailers f (maskDisk c0) (legacyEncryption c0.nDisk)
      else .ok (legacyEncryption c0.nDisk, HEADERS_NOT_SIGNED)) with
    | error e4 =>
      rw [hd] at h
      simp only [Except.error.injEq] at h
      subst h
      by_cases hcl : (maskDisk c0).nCommentLength ≥ sizeofExtendedTrailer
      · rw [if_pos hcl] at hd
        rw [decodeTrailers_error_kind f (maskDisk c0) (legacyEncryption c0.nDisk) e4 hd]
        rfl
      · rw [if_neg hcl] at hd
        simp at hd
    | ok es =>
      obtain ⟨encH, sgH⟩ := es
      rw [hd] at h
      split_ifs at h <;>
        simp only [Except.error.injEq, reduceCtorEq] at h <;>
        first
          | (subst h; rfl)
          | exact h.elim

/-- Structural invariant of a successful `Prepare`: the CDR offset is
bounded by the EOCD position, itself a `CDREnd` short of the file end. -/
theorem prepare_ok_inv (f : List Nat) (st : PrepState) (h : prepare f = .ok st) :
    st.cdrEnd.lCDROffset ≤ st.cdrEndPos ∧ st.cdrEndPos + sizeofCDREnd ≤ f.length := by
  cases hf : findCDREnd f with
  | error e3 => simp [prepare, hf] at h
  | ok cp =>
    obtain ⟨c0, pos⟩ := cp
    simp only [prepare, hf] at h
    cases hd : (if (maskDisk c0).nCommentLength ≥ sizeofExtendedTrailer then
        decodeTrailers f (maskDisk c0) (legacyEncryption c0.nDisk)
      else .ok (legacyEncryption c0.nDisk, HEADERS_NOT_SIGNED)) with
    | error e4 => rw [hd] at h; simp at h
    | ok es =>
      obtain ⟨encH, sgH⟩ := es
      rw [hd] at h
      split_ifs at h with h1 h2
      all_goals simp only [Except.ok.injEq, reduceCtorEq] at h
      all_goals try exact h.elim
      subst h
      dsimp only
      push_neg at h2
      exact ⟨h2.1, findCDREnd_ok_pos f c0 pos hf⟩

/-- When `BuildFileEntryMap` aborts, its last log entry is structural:
the CDR read failure, an unsupported version, or a corrupt record. -/
theorem buildFileEntryMap_none_last (uncompress : List Nat → Nat → ZlibResult)
    (crc32fn : List Nat → Nat) (im : InitMethod) (f : List Nat) (st : PrepState)
    (lg : List ZipDirError)
    (h : buildFileEntryMap uncompress crc32fn im f st = (lg, none)) :
    ∃ l2 e2, lg = l2 ++ [e2] ∧ isPerEntryOnlyError e2 = false := by
  simp only [buildFileEntryMap] at h
  split_ifs at h with h0
  · simp at h
  · cases hrd : readHeaderData f st.cdrEnd.lCDROffset st.cdrEnd.lCDRSize st.encryptedHeaders
        st.signedHeaders with
    | none =>
      rw [hrd] at h
      have h2 : ([ZipDirError.corruptedData], (none : Option FileEntryTree)) = (lg, none) := h
      simp only [Prod.mk.injEq] at h2
      exact ⟨[], .corruptedData, by rw [← h2.1]; rfl, rfl⟩
    | some b =>
      rw [hrd] at h
      have h2 : buildLoop uncompress crc32fn im f st.encryptedHeaders st.cdrEnd.lCDROffset
          st.cdrEndPos b st.cdrEnd.lCDRSize 0 [] [] = (lg, none) := h
      have h3 : (buildLoop uncompress crc32fn im f st.encryptedHeaders st.cdrEnd.lCDROffset
          st.cdrEndPos b st.cdrEnd.lCDRSize 0 [] []).2 = none := by rw [h2]
      obtain ⟨l2, e2, hs, hk⟩ := buildLoop_none_last uncompress crc32fn im f
        st.encryptedHeaders st.cdrEnd.lCDROffset st.cdrEndPos b st.cdrEnd.lCDRSize 0 [] [] h3
      refine ⟨l2, e2, ?_, ?_⟩
      · rw [← show (buildLoop uncompress crc32fn im f st.encryptedHeaders st.cdrEnd.lCDROffset
            st.cdrEndPos b st.cdrEnd.lCDRSize 0 [] []).1 = lg by rw [h2]]
        exact hs
      · rcases hk with rfl | rfl <;> rfl

/-- Every leaf of a tree built by `BuildFileEntryMap` has a local-header
offset of at most the CDR offset. -/
theorem buildFileEntryMap_mem_headerOffset (uncompress : List Nat → Nat → ZlibResult)
    (crc32fn : List Nat → Nat) (im : InitMethod) (f : List Nat) (st : PrepState)
    (lg : List ZipDirError) (t : FileEntryTree)
    (h : buildFileEntryMap uncompress crc32fn im f st = (lg, some t)) :
    ∀ kv ∈ t, kv.2.nFileHeaderOffset ≤ st.cdrEnd.lCDROffset := by
  simp only [buildFileEntryMap] at h
  split_ifs at h with h0
  · have h2 : (([] : List ZipDirError), some ([] : FileEntryTree)) = (lg, some t) := h
    simp only [Prod.mk.injEq, Option.some.injEq] at h2
    rw [← h2.2]
    intro kv hkv
    simp at hkv
  · cases hrd : readHeaderData f st.cdrEnd.lCDROffset st.cdrEnd.lCDRSize st.encryptedHeaders
        st.signedHeaders with
    | none =>
      rw [hrd] at h
      have h2 : ([ZipDirError.corruptedData], (none : Option FileEntryTree)) = (lg, some t) := h
      simp at h2
    | some b =>
      rw [hrd] at h
      have h2 : buildLoop uncompress crc32fn im f st.encryptedHeaders st.cdrEnd.lCDROffset
          st.cdrEndPos b st.cdrEnd.lCDRSize 0 [] [] = (lg, some t) := h
      exact buildLoop_mem_headerOffset uncompress crc32fn im f st.encryptedHeaders
        st.cdrEnd.lCDROffset st.cdrEndPos b st.cdrEnd.lCDRSize 0 [] [] lg t
        (by intro kv hkv; simp at hkv) h2

/-- The offset bound holds for the full walk's tree unconditionally:
even a tree left by a mid-walk abort satisfies it. -/
theorem buildFileEntryMapP_mem_headerOffset (uncompress : List Nat → Nat → ZlibResult)
    (crc32fn : List Nat → Nat) (im : InitMethod) (f : List Nat) (st : PrepState) :
    ∀ kv ∈ (buildFileEntryMapP uncompress crc32fn im f st).2.1,
      kv.2.nFileHeaderOffset ≤ st.cdrEnd.lCDROffset := by
  intro kv hkv
  simp only [buildFileEntryMapP] at hkv
  split_ifs at hkv with h0
  · simp at hkv
  · cases hrd : readHeaderData f st.cdrEnd.lCDROffset st.cdrEnd.lCDRSize st.encryptedHeaders
        st.signedHeaders with
    | none =>
      rw [hrd] at hkv
      simp at hkv
    | some b =>
      rw [hrd] at hkv
      exact buildLoopP_mem_headerOffset uncompress crc32fn im f st.encryptedHeaders
        st.cdrEnd.lCDROffset st.cdrEndPos b st.cdrEnd.lCDRSize 0 [] []
        (by intro kv2 hkv2; simp at hkv2) kv hkv

/-! The three whole-open claims: partial caches, entry bounds, leaf
counts. -/

/-- C1 (amended): the open returns no cache exactly when one of
`Prepare`'s pre-walk stages fails — CDR location, trailer decoding, the
multivolume check or the CDR-range check — and the log is then that
single structural error, never a per-entry validation tag.  Failures of
the CDR walk itself (the CDR read, an unsupported record version, a
record overrunning the buffer) and per-entry validation failures are
merely logged: `Prepare` discards `BuildFileEntryMap`'s result and
returns true, so the open still returns a cache holding the entries
accepted so far, as the counterexample exhibits both for a per-entry
failure and for a mid-walk abort. -/
theorem zipdir_c1_no_partial_cache (uncompress : List Nat → Nat → ZlibResult)
    (crc32fn : List Nat → Nat) (im : InitMethod) (f : List Nat)
    (h : (readCache uncompress crc32fn im f).2 = none) :
    ∃ e, prepare f = .error e ∧ readCache uncompress crc32fn im f = ([e], none) ∧
      isPerEntryOnlyError e = false := by
  cases hp : prepare f with
  | error e3 =>
    exact ⟨e3, rfl, by simp only [readCache, hp], prepare_error_kind f e3 hp⟩
  | ok st => simp [readCache, hp] at h

/-- Witness for C1 at the empty file: the open aborts with no cache,
caused by `Prepare`'s structural `tooSmall` outcome. -/
theorem zipdir_c1_no_partial_cache_witness :
    (readCache uncompressStub crc32Stub InitMethod.default []).2 = none ∧
    ∃ e, prepare [] = .error e ∧
      readCache uncompressStub crc32Stub InitMethod.default [] = ([e], none) ∧
      isPerEntryOnlyError e = false :=
  ⟨by decide, zipdir_c1_no_partial_cache uncompressStub crc32Stub InitMethod.default []
    (by decide)⟩

set_option maxHeartbeats 2000000 in
set_option maxRecDepth 20000 in
/-- Counterexample for C1 as stated: opening `archivePartial` logs a
per-entry `ValidationFailed` yet returns a cache with the surviving
entry, and opening `archiveAbortMid` aborts the CDR walk with
`Unsupported` at its second record yet still returns a cache holding
the first — partially populated caches escape in both cases. -/
theorem zipdir_c1_no_partial_cache_counterexample :
    readCache uncompressStub crc32Stub InitMethod.default archivePartial =
      ([.validationFailed], some cachePartial) ∧
    cachePartial.entries.length = 1 ∧
    readCache uncompressStub crc32Stub InitMethod.default archiveAbortMid =
      ([.unsupported], some cacheAbortMid) ∧
    cacheAbortMid.entries.length = 1 ∧
    isPerEntryOnlyError .validationFailed = true := by
  refine ⟨?_, by decide, ?_, by decide, by decide⟩
  · have h1 : prepare archivePartial =
        Except.ok ⟨⟨101010256, 0, 0, 2, 2, 94, 0, 0⟩, 94, 0, 0⟩ := rfl
    have h2 : readHeaderData archivePartial 0 94 0 0 =
        some ((archivePartial.drop 0).take 94) := rfl
    simp only [readCache, h1, buildFileEntryMapP]
    norm_num
    rw [h2]
    simp [buildLoopP, addFileEntry, treeAdd, refreshEOFOffsets, nextBoundary, parseExtras,
      readCDRFileHeaderAt, rawNameAt, isDirectoryName, normalizeName, toLowerByte,
      archivePartial, mkCDRRecord, mkCDREnd, le16, le32, byteD, u16At, u32At, u64At,
      sizeofCDRFileHeader, METHOD_STORE, METHOD_STORE_AND_STREAMCIPHER_KEYTABLE,
      HEADERS_NOT_ENCRYPTED, InitMethod.toNat, FileEntryBase.ofHeader, CDREndSignature,
      correctSeparator, wrongSeparator, cachePartial, fePartialB]
  · have h1 : prepare archiveAbortMid =
        Except.ok ⟨⟨101010256, 0, 0, 2, 2, 94, 0, 0⟩, 94, 0, 0⟩ := rfl
    have h2 : readHeaderData archiveAbortMid 0 94 0 0 =
        some ((archiveAbortMid.drop 0).take 94) := rfl
    simp only [readCache, h1, buildFileEntryMapP]
    norm_num
    rw [h2]
    simp [buildLoopP, addFileEntry, treeAdd, refreshEOFOffsets, nextBoundary, parseExtras,
      readCDRFileHeaderAt, rawNameAt, isDirectoryName, normalizeName, toLowerByte,
      archiveAbortMid, mkCDRRecord, mkCDREnd, le16, le32, byteD, u16At, u32At, u64At,
      sizeofCDRFileHeader, METHOD_STORE, METHOD_STORE_AND_STREAMCIPHER_KEYTABLE,
      HEADERS_NOT_ENCRYPTED, InitMethod.toNat, FileEntryBase.ofHeader, CDREndSignature,
      correctSeparator, wrongSeparator, cacheAbortMid, feAbortMid]

/-- C4 (amended): every entry of a returned cache satisfies
`local_header_offset ≤ cdr_offset` and `cdr_offset < file_size`.  The
first inequality is not strict: `AddFileEntry` rejects only entries with
`local_header_offset > cdr_offset`, so equality is accepted, as the
counterexample shows. -/
theorem zipdir_c4_entry_bounds (uncompress : List Nat → Nat → ZlibResult)
    (crc32fn : List Nat → Nat) (im : InitMethod) (f : List Nat) (log : List ZipDirError)
    (c : Cache) (h : readCache uncompress crc32fn im f = (log, some c)) :
    (∀ kv ∈ c.entries, kv.2.nFileHeaderOffset ≤ c.lCDROffset) ∧ c.lCDROffset < f.length := by
  cases hp : prepare f with
  | error e3 => simp [readCache, hp] at h
  | ok st =>
    simp only [readCache, hp] at h
    have h2 : ((buildFileEntryMapP uncompress crc32fn im f st).1,
        some (⟨refreshEOFOffsets (buildFileEntryMapP uncompress crc32fn im f st).2.1
          st.cdrEnd.lCDROffset, st.cdrEnd.lCDROffset, st.encryptedHeaders,
          st.signedHeaders⟩ : Cache)) = (log, some c) := h
    simp only [Prod.mk.injEq, Option.some.injEq] at h2
    obtain ⟨hlg, hc⟩ := h2
    subst hc
    refine ⟨?_, ?_⟩
    · intro kv hkv
      dsimp only at hkv ⊢
      obtain ⟨kv0, hkv0, _, hoff⟩ := refreshEOFOffsets_mem _ st.cdrEnd.lCDROffset kv hkv
      rw [hoff]
      exact buildFileEntryMapP_mem_headerOffset uncompress crc32fn im f st kv0 hkv0
    · have hinv := prepare_ok_inv f st hp
      dsimp only
      simp only [sizeofCDREnd] at hinv
      omega

set_option maxHeartbeats 2000000 in
set_option maxRecDepth 20000 in
/-- Witness for C4 at `archiveOneFile`: its single entry respects the
offset bound, and the CDR offset lies inside the file. -/
theorem zipdir_c4_entry_bounds_witness :
    feOneFile.nFileHeaderOffset ≤ cacheOneFile.lCDROffset ∧
    cacheOneFile.lCDROffset < archiveOneFile.length := by
  have heval : readCache uncompressStub crc32Stub InitMethod.default archiveOneFile =
      ([], some cacheOneFile) := by
    have h1 : prepare archiveOneFile =
        Except.ok ⟨⟨101010256, 0, 0, 1, 1, 47, 0, 0⟩, 47, 0, 0⟩ := rfl
    have h2 : readHeaderData archiveOneFile 0 47 0 0 =
        some ((archiveOneFile.drop 0).take 47) := rfl
    have h3 : (archiveOneFile.drop 0).take 47 = bufOneFile := by decide
    simp only [readCache, h1, buildFileEntryMapP]
    norm_num
    rw [h2, h3]
    simp [buildLoopP, addFileEntry, treeAdd, refreshEOFOffsets, nextBoundary, parseExtras,
      readCDRFileHeaderAt, rawNameAt, isDirectoryName, normalizeName, toLowerByte, bufOneFile,
      mkCDRRecord, le16, le32, byteD, u16At, u32At, u64At, sizeofCDRFileHeader, METHOD_STORE,
      METHOD_STORE_AND_STREAMCIPHER_KEYTABLE, HEADERS_NOT_ENCRYPTED, InitMethod.toNat,
      FileEntryBase.ofHeader, correctSeparator, wrongSeparator, cacheOneFile, feOneFile]
  have h := zipdir_c4_entry_bounds uncompressStub crc32Stub InitMethod.default archiveOneFile
    [] cacheOneFile heval
  exact ⟨h.1 ([97], feOneFile) (by decide), h.2⟩

set_option maxHeartbeats 2000000 in
set_option maxRecDepth 20000 in
/-- Counterexample for C4 as stated: `archiveEqualOffset`'s single entry
has local-header offset 47 equal to the CDR offset 47 and is accepted
into the cache, refuting the claimed strict inequality and the claimed
rejection of entries with `local_header_offset = cdr_offset`. -/
theorem zipdir_c4_entry_bounds_counterexample :
    readCache uncompressStub crc32Stub InitMethod.default archiveEqualOffset =
      ([], some cacheEqualOffset) ∧
    ([97], feEqualOffset) ∈ cacheEqualOffset.entries ∧
    feEqualOffset.nFileHeaderOffset = cacheEqualOffset.lCDROffset ∧
    ¬ feEqualOffset.nFileHeaderOffset < cacheEqualOffset.lCDROffset := by
  refine ⟨?_, by decide, by decide, by decide⟩
  have h1 : prepare archiveEqualOffset =
      Except.ok ⟨⟨101010256, 0, 0, 1, 1, 47, 47, 0⟩, 94, 0, 0⟩ := rfl
  have h2 : readHeaderData archiveEqualOffset 47 47 0 0 =
      some ((archiveEqualOffset.drop 47).take 47) := rfl
  have h3 : (archiveEqualOffset.drop 47).take 47 =
      mkCDRRecord 20 METHOD_STORE 0 0 0 47 [97] := by decide
  simp only [readCache, h1, buildFileEntryMapP]
  norm_num
  rw [h2, h3]
  simp [buildLoopP, addFileEntry, treeAdd, refreshEOFOffsets, nextBoundary, parseExtras,
    readCDRFileHeaderAt, rawNameAt, isDirectoryName, normalizeName, toLowerByte,
    mkCDRRecord, le16, le32, byteD, u16At, u32At, u64At, sizeofCDRFileHeader, METHOD_STORE,
    METHOD_STORE_AND_STREAMCIPHER_KEYTABLE, HEADERS_NOT_ENCRYPTED, InitMethod.toNat,
    FileEntryBase.ofHeader, correctSeparator, wrongSeparator, cacheEqualOffset, feEqualOffset]

/-- C8 (amended): the leaf count of the built tree equals the number of
non-directory CDR records provided each such record passes
`AddFileEntry` and the (normalised) names are pairwise distinct; a
directory record never produces a leaf.  Unconditionally the claim is
false: a non-directory record rejected by `AddFileEntry` also produces
no leaf, as the counterexample shows. -/
theorem zipdir_c8_leaf_count (uncompress : List Nat → Nat → ZlibResult)
    (crc32fn : List Nat → Nat) (im : InitMethod) (f : List Nat) (st : PrepState)
    (b : List Nat) (rs : List CDRRecordView) (lg : List ZipDirError) (tree : FileEntryTree)
    (hsz : st.cdrEnd.lCDRSize ≠ 0)
    (hrd : readHeaderData f st.cdrEnd.lCDROffset st.cdrEnd.lCDRSize st.encryptedHeaders
      st.signedHeaders = some b)
    (hrs : cdrRecords b st.cdrEnd.lCDRSize 0 = some rs)
    (hacc : ∀ r ∈ rs, r.isDir = false → recordAccepted uncompress crc32fn im f
      st.encryptedHeaders st.cdrEnd.lCDROffset st.cdrEndPos b r = true)
    (hnd : ((rs.filter fun r => !r.isDir).map fun r => r.normName).Nodup)
    (h : buildFileEntryMap uncompress crc32fn im f st = (lg, some tree)) :
    tree.length = (rs.filter fun r => !r.isDir).length := by
  simp only [buildFileEntryMap] at h
  rw [if_neg hsz, hrd] at h
  have h2 : buildLoop uncompress crc32fn im f st.encryptedHeaders st.cdrEnd.lCDROffset
      st.cdrEndPos b st.cdrEnd.lCDRSize 0 [] [] = (lg, some tree) := h
  have h3 := buildLoop_count uncompress crc32fn im f st.encryptedHeaders st.cdrEnd.lCDROffset
    st.cdrEndPos b st.cdrEnd.lCDRSize rs 0 [] [] lg tree hrs hacc
    (by intro r hr hrd2; simp) hnd h2
  simpa using h3

set_option maxHeartbeats 2000000 in
set_option maxRecDepth 20000 in
/-- Witness for C8 at `archiveOneFile`: one file record, no directory
records, and the built tree has exactly one leaf. -/
theorem zipdir_c8_leaf_count_witness :
    treeOneFile.length = (rsOneFile.filter fun r => !r.isDir).length := by
  refine zipdir_c8_leaf_count uncompressStub crc32Stub InitMethod.default archiveOneFile
    stOneFile bufOneFile rsOneFile [] treeOneFile (by decide) (by decide) ?_ ?_ (by decide) ?_
  · simp [cdrRecords, bufOneFile, rsOneFile, hdrOneFile, stOneFile, mkCDRRecord, le16, le32,
      readCDRFileHeaderAt, rawNameAt, isDirectoryName, normalizeName, toLowerByte, byteD,
      u16At, u32At, sizeofCDRFileHeader, METHOD_STORE, correctSeparator, wrongSeparator]
  · intro r hr hrd2
    simp only [rsOneFile, List.mem_singleton] at hr
    subst hr
    simp [recordAccepted, recordExtras, parseExtras, addFileEntry, hdrOneFile, stOneFile,
      METHOD_STORE, METHOD_STORE_AND_STREAMCIPHER_KEYTABLE, HEADERS_NOT_ENCRYPTED,
      InitMethod.toNat, sizeofCDRFileHeader]
  · have h2 : readHeaderData archiveOneFile 0 47 0 0 =
        some ((archiveOneFile.drop 0).take 47) := rfl
    have h3 : (archiveOneFile.drop 0).take 47 = bufOneFile := by decide
    simp only [buildFileEntryMap, stOneFile]
    norm_num
    rw [h2, h3]
    simp [buildLoop, addFileEntry, treeAdd, parseExtras, readCDRFileHeaderAt, rawNameAt,
      isDirectoryName, normalizeName, toLowerByte, bufOneFile, mkCDRRecord, le16, le32, byteD,
      u16At, u32At, u64At, sizeofCDRFileHeader, METHOD_STORE,
      METHOD_STORE_AND_STREAMCIPHER_KEYTABLE, HEADERS_NOT_ENCRYPTED, InitMethod.toNat,
      FileEntryBase.ofHeader, correctSeparator, wrongSeparator, treeOneFile, feOneFilePre]

set_option maxHeartbeats 2000000 in
set_option maxRecDepth 20000 in
/-- Counterexample for C8 as stated: `archiveDirSkip`'s CDR parses as
one file record and one directory record (`N_f = 1`), yet the built tree
has 0 leaves — the file record failed `AddFileEntry`'s STORE size check
and produced no leaf either. -/
theorem zipdir_c8_leaf_count_counterexample :
    cdrRecords bufDirSkip 95 0 = some rsDirSkip ∧
    rsDirSkip.map (fun r => r.isDir) = [false, true] ∧
    (rsDirSkip.filter fun r => !r.isDir).length = 1 ∧
    buildFileEntryMap uncompressStub crc32Stub InitMethod.default archiveDirSkip stDirSkip =
      ([.validationFailed], some []) ∧
    ([] : FileEntryTree).length ≠ 1 := by
  refine ⟨?_, by decide, by decide, ?_, by decide⟩
  · simp [cdrRecords, bufDirSkip, rsDirSkip, hdrDirA, hdrDirD, mkCDRRecord, le16, le32,
      readCDRFileHeaderAt, rawNameAt, isDirectoryName, normalizeName, toLowerByte, byteD,
      u16At, u32At, sizeofCDRFileHeader, METHOD_STORE, correctSeparator, wrongSeparator]
  · have h2 : readHeaderData archiveDirSkip 0 95 0 0 =
        some ((archiveDirSkip.drop 0).take 95) := rfl
    have h3 : (archiveDirSkip.drop 0).take 95 = bufDirSkip := by decide
    simp only [buildFileEntryMap, stDirSkip]
    norm_num
    rw [h2, h3]
    simp [buildLoop, addFileEntry, treeAdd, parseExtras, readCDRFileHeaderAt, rawNameAt,
      isDirectoryName, normalizeName, toLowerByte, bufDirSkip, mkCDRRecord, le16, le32, byteD,
      u16At, u32At, u64At, sizeofCDRFileHeader, METHOD_STORE,
      METHOD_STORE_AND_STREAMCIPHER_KEYTABLE, HEADERS_NOT_ENCRYPTED, InitMethod.toNat,
      FileEntryBase.ofHeader, correctSeparator, wrongSeparator]

end ZipDir
